import Mathlib

/-!
# Verification of the library-manager record-store contract

Shallow embedding of the record-store operations of the repository:

* `DatabaseManager` (src/db_manager.py) — the SQLite-backed store.  A row of
  the `books` table is modelled as eight `Option String` fields (`none` = SQL
  NULL).  The store is the list of rows in primary-key (= insertion) order.
  The `Signature TEXT UNIQUE` constraint is modelled inside the insert/update
  steps: a write that stores a non-NULL signature equal to the signature of
  another row fails with `Err.integrityError` (sqlite3.IntegrityError).
  The application-level `raise ValueError(...)` sites are modelled by the
  dedicated constructors `Err.duplicateSignature`, `Err.notFound`,
  `Err.invalidIndex`.
* `LibraryManager` (src/library_manager.py) — the pandas/CSV-backed store.
  A dataframe row is modelled by the same `Row` type (`none` = NaN/None).
  Pandas raises a raw positional `IndexError` on out-of-range indexing,
  modelled by `Err.indexError`.
* the sort-by-column handler shared by src/main.py and
  src/books-viewer/common_ui.py, including its toggle state.

Python string primitives (`str.strip`, `str.lower`, `str.split(',')`, string
comparison, SQL `LIKE`) are embedded as structural functions over the
character list of the string, at ASCII fidelity.

Errors abort the operation before any mutation is persisted (each raise in
the source happens before the write, or the write itself fails atomically),
so operations return `Except Err (List Row)`: an `.error` result leaves the
caller's store as it was.
-/

/-- Python `str.isspace` characters in the ASCII range, as used by
`str.strip()`. -/
def pyIsSpace (c : Char) : Bool :=
  c = ' ' || c = '\t' || c = '\n' || c = '\x0d' || c = '\x0b' || c = '\x0c'

/-- Python `str.strip()` (ASCII whitespace). -/
def pyStrip (s : String) : String :=
  ⟨((s.data.dropWhile pyIsSpace).reverse.dropWhile pyIsSpace).reverse⟩

/-- Python `str.lower()` at ASCII fidelity (`'A'..'Z'` mapped down). -/
def pyLower (s : String) : String :=
  ⟨s.data.map Char.toLower⟩

/-- Python `str.split(',')` on the character list: comma-separated segments,
empty segments kept. -/
def pySplitCommaAux : List Char → List Char → List String
  | [], acc => [⟨acc.reverse⟩]
  | c :: cs, acc =>
    if c = ',' then (⟨acc.reverse⟩ : String) :: pySplitCommaAux cs []
    else pySplitCommaAux cs (c :: acc)

/-- Python `str.split(',')`. -/
def pySplitComma (s : String) : List String :=
  pySplitCommaAux s.data []

/-- Python string comparison `a < b`: lexicographic on code points. -/
def pyCharsLt : List Char → List Char → Bool
  | [], [] => false
  | [], _ :: _ => true
  | _ :: _, [] => false
  | c :: cs, d :: ds =>
    if c < d then true else if d < c then false else pyCharsLt cs ds

/-- Python string comparison `a < b` on `String`. -/
def pyStrLt (a b : String) : Bool :=
  pyCharsLt a.data b.data

/-- Failure modes of the record-store operations.  `duplicateSignature`,
`notFound` and `invalidIndex` model the explicit `raise ValueError(...)`
sites; `integrityError` models a `sqlite3.IntegrityError` raised by the
`Signature TEXT UNIQUE` constraint; `indexError` models a raw Python
`IndexError` from out-of-range positional indexing. -/
inductive Err where
  | duplicateSignature
  | notFound
  | invalidIndex
  | integrityError
  | indexError
deriving DecidableEq, Repr

/-- A persisted row: eight nullable text fields.  `none` models SQL NULL in
the relational backend and NaN/None in the pandas backend. -/
structure Row where
  isbn : Option String
  title : Option String
  author : Option String
  publisher : Option String
  year : Option String
  signature : Option String
  description : Option String
  keywords : Option String
deriving DecidableEq, Repr

/-- An 8-tuple of strings as supplied by the GUI dialogs to `add_record` /
`update_record`, and as returned by the relational backend's reads. -/
structure BookRec where
  isbn : String
  title : String
  author : String
  publisher : String
  year : String
  signature : String
  description : String
  keywords : String
deriving DecidableEq, Repr

/-- `tuple('' if val is None else val for val in row)` — the NULL-to-empty
substitution the relational backend applies on every read. -/
def sanitizeRow (r : Row) : BookRec :=
  ⟨r.isbn.getD "", r.title.getD "", r.author.getD "", r.publisher.getD "",
   r.year.getD "", r.signature.getD "", r.description.getD "", r.keywords.getD ""⟩

/-- The row written by `add_record`/`update_record` in both backends: every
field is stored verbatim except Signature, which is stored as NULL/None when
falsy (`signature if signature else None`). -/
def mkRow (b : BookRec) : Row :=
  ⟨some b.isbn, some b.title, some b.author, some b.publisher, some b.year,
   (if b.signature = "" then none else some b.signature),
   some b.description, some b.keywords⟩

/-- `str(...)` applied to a possibly-missing pandas cell: a missing value
(float NaN) prints as `"nan"`, a present string prints as itself. -/
def strOfOpt : Option String → String
  | some s => s
  | none => "nan"

/-- The search criteria object: seven optional text fields, empty string
meaning "no constraint" (the GUI always supplies all seven, stripped). -/
structure Filters where
  isbn : String
  title : String
  author : String
  publisher : String
  year : String
  signature : String
  keywords : String
deriving DecidableEq, Repr

/-- The non-empty stripped comma-separated keyword tokens of a criteria
string (`for kw in keywords.split(','): kw = kw.strip(); if kw: ...`). -/
def keywordTokens (s : String) : List String :=
  ((pySplitComma s).map pyStrip).filter (fun t => t ≠ "")

/-- The `%` wildcard of SQL `LIKE`: try to match the rest of the pattern
(`next`) at every suffix of the string. -/
def likeStar (next : List Char → Bool) : List Char → Bool
  | [] => next []
  | d :: s' => next (d :: s') || likeStar next s'

/-- SQL `LIKE` matching (no ESCAPE clause): `%` matches any character
sequence, `_` any single character, other characters match themselves
ASCII-case-insensitively (SQLite's default `LIKE` case folding). -/
def likeMatch : List Char → List Char → Bool
  | [], s => s.isEmpty
  | c :: ps, s =>
    if c = '%' then likeStar (likeMatch ps) s
    else
      match s with
      | [] => false
      | d :: s' =>
        if c = '_' then likeMatch ps s'
        else (c.toLower = d.toLower) && likeMatch ps s'

/-- `column LIKE '%{crit}%'` on a nullable column: a NULL column value never
matches (`NULL LIKE x` is NULL in SQL). -/
def likeCond (field : Option String) (crit : String) : Bool :=
  match field with
  | none => false
  | some s => likeMatch ('%' :: (crit.data ++ ['%'])) s.data

namespace DatabaseManager

/-- `SELECT COUNT(*) FROM books WHERE Signature = ?` — does any row store
exactly this (non-NULL) signature? -/
def sigExists (store : List Row) (s : String) : Bool :=
  store.any (fun r => r.signature == some s)

/-- `SELECT COUNT(*) FROM books WHERE Signature = ? AND id != ?` — does a row
other than the one at position `i` store exactly this signature? -/
def sigExistsExcept (store : List Row) (i : Nat) (s : String) : Bool :=
  store.enum.any (fun p => p.1 != i && p.2.signature == some s)

/-- One `INSERT INTO books ...` statement.  The `Signature TEXT UNIQUE`
constraint makes it fail (`sqlite3.IntegrityError`) exactly when the inserted
signature is non-NULL and an existing row stores the same value; NULL
signatures are exempt. -/
def insertRow (store : List Row) (r : Row) : Except Err (List Row) :=
  match r.signature with
  | some s => if sigExists store s then .error .integrityError else .ok (store ++ [r])
  | none => .ok (store ++ [r])

/-- `DatabaseManager.add_record` (src/db_manager.py:59-80): duplicate check
only `if signature and signature.strip()`, then the INSERT. -/
def add_record (store : List Row) (b : BookRec) : Except Err (List Row) :=
  if b.signature ≠ "" ∧ pyStrip b.signature ≠ "" then
    if sigExists store b.signature then .error .duplicateSignature
    else insertRow store (mkRow b)
  else insertRow store (mkRow b)

/-- The UPDATE statement of `update_record`: sets all eight fields of row
`i`; the UNIQUE constraint fails the statement when the new signature is
non-NULL and stored on another row. -/
def updateRowAt (store : List Row) (i : Nat) (b : BookRec) : Except Err (List Row) :=
  match (mkRow b).signature with
  | some s => if sigExistsExcept store i s then .error .integrityError
              else .ok (store.set i (mkRow b))
  | none => .ok (store.set i (mkRow b))

/-- `DatabaseManager.update_record` (src/db_manager.py:82-121).  The lookup
is `SELECT id FROM books WHERE ISBN = ?` — exact string comparison, first
match in id order; `lookup_isbn = original_isbn if original_isbn else isbn`. -/
def update_record (store : List Row) (b : BookRec) (originalIsbn : String) :
    Except Err (List Row) :=
  let lookup := if originalIsbn ≠ "" then originalIsbn else b.isbn
  match store.findIdx? (fun r => r.isbn == some lookup) with
  | none => .error .notFound
  | some i =>
    if b.signature ≠ "" ∧ pyStrip b.signature ≠ "" then
      if sigExistsExcept store i b.signature then .error .duplicateSignature
      else updateRowAt store i b
    else updateRowAt store i b

/-- `DatabaseManager.get_all_records` (src/db_manager.py:46-57): all rows in
table order with `None` replaced by `''`. -/
def get_all_records (store : List Row) : List BookRec :=
  store.map sanitizeRow

/-- `DatabaseManager.delete_record` (src/db_manager.py:123-135): re-fetch all
records, reject an out-of-range position, resolve the position to the
(sanitized) ISBN at that position, then `DELETE FROM books WHERE ISBN = ?` —
which removes every row whose stored ISBN equals that value (NULL ISBNs never
compare equal in SQL). -/
def delete_record (store : List Row) (index : Nat) : Except Err (List Row) :=
  let records := get_all_records store
  if h : index < records.length then
    let isbn := (records.get ⟨index, h⟩).isbn
    .ok (store.filter (fun r => !(r.isbn == some isbn)))
  else .error .invalidIndex

/-- Does a row pass the WHERE clause built by
`DatabaseManager.filter_records` (src/db_manager.py:137-184)?  Every truthy
criterion contributes `AND column LIKE '%crit%'`; the keywords criterion
contributes one LIKE per non-empty stripped comma token. -/
def rowPasses (f : Filters) (r : Row) : Bool :=
  (f.isbn == "" || likeCond r.isbn f.isbn) &&
  (f.title == "" || likeCond r.title f.title) &&
  (f.author == "" || likeCond r.author f.author) &&
  (f.publisher == "" || likeCond r.publisher f.publisher) &&
  (f.year == "" || likeCond r.year f.year) &&
  (f.signature == "" || likeCond r.signature f.signature) &&
  (f.keywords == "" || (keywordTokens f.keywords).all (fun kw => likeCond r.keywords kw))

/-- `DatabaseManager.filter_records`: the rows passing the WHERE clause, in
table order, sanitized on read like `get_all_records`. -/
def filter_records (store : List Row) (f : Filters) : List BookRec :=
  (store.filter (rowPasses f)).map sanitizeRow

/-- The non-NULL signatures currently stored
(`SELECT Signature FROM books WHERE Signature IS NOT NULL`). -/
def storedSigs (store : List Row) : List String :=
  store.filterMap (fun r => r.signature)

/-- The guarded INSERT of one source row: `imported += 1` on success,
`skipped += 1` when the UNIQUE constraint rejects it
(`except sqlite3.IntegrityError: skipped += 1`). -/
def tryInsert (acc : Nat × Nat × List Row) (r : Row) : Nat × Nat × List Row :=
  match insertRow acc.2.2 r with
  | .ok st' => (acc.1 + 1, acc.2.1, st')
  | .error _ => (acc.1, acc.2.1 + 1, acc.2.2)

/-- One iteration of the `import_from_tsv` row loop: skip when the source
signature is present (`pd.notna`) and its stripped form is among the
signatures captured before the import began, otherwise attempt the INSERT. -/
def importStep (currentSigs : List String) (acc : Nat × Nat × List Row) (r : Row) :
    Nat × Nat × List Row :=
  match r.signature with
  | some s =>
    if currentSigs.contains (pyStrip s) then (acc.1, acc.2.1 + 1, acc.2.2)
    else tryInsert acc r
  | none => tryInsert acc r

/-- `DatabaseManager.import_from_tsv` (src/db_manager.py:192-231) after the
source file has been parsed into rows (NaN cells as `none`): returns
`(imported, skipped)` and the resulting store. -/
def import_from_tsv (store : List Row) (src : List Row) : Nat × Nat × List Row :=
  src.foldl (importStep (storedSigs store)) (0, 0, store)

end DatabaseManager

namespace LibraryManager

/-- `signature in self.df['Signature'].values` — exact equality against the
stored column values (None/NaN never equals a string). -/
def sigExists (store : List Row) (s : String) : Bool :=
  store.any (fun r => r.signature == some s)

/-- `LibraryManager.add_record` (src/library_manager.py:40-61): the GUI hands
a tuple of `str`s, so `pd.isna(signature)` is False and the guard is just
signature truthiness; on success the new row is appended to the dataframe. -/
def add_record (store : List Row) (b : BookRec) : Except Err (List Row) :=
  if b.signature ≠ "" ∧ sigExists store b.signature then .error .duplicateSignature
  else .ok (store ++ [mkRow b])

/-- `self.df['Signature'] == signature` on rows other than `i`. -/
def sigExistsExcept (store : List Row) (i : Nat) (s : String) : Bool :=
  store.enum.any (fun p => p.1 != i && p.2.signature == some s)

/-- `LibraryManager.update_record` (src/library_manager.py:63-101): the
lookup compares `astype(str).str.strip()` of the ISBN column (NaN prints as
"nan") against `str(lookup_isbn).strip()` and takes the first positional
match; then the exact-match duplicate-signature check on other rows; then all
eight fields are assigned in place. -/
def update_record (store : List Row) (b : BookRec) (originalIsbn : String) :
    Except Err (List Row) :=
  let lookup := if originalIsbn ≠ "" then originalIsbn else b.isbn
  match store.findIdx? (fun r => pyStrip (strOfOpt r.isbn) == pyStrip lookup) with
  | none => .error .notFound
  | some i =>
    if b.signature ≠ "" ∧ sigExistsExcept store i b.signature then
      .error .duplicateSignature
    else .ok (store.set i (mkRow b))

/-- `LibraryManager.get_all_records` (src/library_manager.py:36-38):
`[tuple(row) for row in self.df.values]` — the raw dataframe rows, with
missing values (NaN/None) passed through unchanged.  The read-only viewer's
`ViewerDataManager.get_all_records` (src/books-viewer/viewer_data.py:31-33)
is the same code. -/
def get_all_records (store : List Row) : List Row :=
  store

/-- `LibraryManager.delete_record` (src/library_manager.py:103-108):
`self.df.index[index]` raises a positional `IndexError` when out of range;
otherwise the row is dropped and the index reset. -/
def delete_record (store : List Row) (index : Nat) : Except Err (List Row) :=
  if index < store.length then .ok (store.eraseIdx index)
  else .error .indexError

/-- The stripped string forms of the non-null stored signatures
(`self.df[self.df['Signature'].notna()]['Signature'].astype(str).str.strip()`). -/
def strippedSigs (store : List Row) : List String :=
  store.filterMap (fun r => r.signature.map pyStrip)

/-- `LibraryManager.import_csv_merge` (src/library_manager.py:159-187) after
the source file has been parsed into rows: keep every source row except those
whose signature is present (notna) and whose stripped form is among the
stripped current signatures, and append all kept rows.  No counts are
returned and no duplicate check is made against the kept rows themselves. -/
def import_csv_merge (store : List Row) (src : List Row) : List Row :=
  let currentSigs := strippedSigs store
  let newRecords := src.filter (fun r =>
    !(match r.signature with
      | some s => currentSigs.contains (pyStrip s)
      | none => false))
  store ++ newRecords

end LibraryManager

/-! ## Sort-by-column (src/main.py:226-248, src/books-viewer/common_ui.py:251-271) -/

/-- The displayed column at index `col` of a record tuple
(`COLUMNS.index(col)` over ISBN..Keywords). -/
def fieldAt (col : Nat) (b : BookRec) : String :=
  match col with
  | 0 => b.isbn
  | 1 => b.title
  | 2 => b.author
  | 3 => b.publisher
  | 4 => b.year
  | 5 => b.signature
  | 6 => b.description
  | _ => b.keywords

/-- The sort key `str(x[col_index]).lower()` (tree values are strings). -/
def sortKey (col : Nat) (b : BookRec) : String :=
  pyLower (fieldAt col b)

/-- Stable insertion of `x` into `l`: `x` is placed before the first element
`y` that does not satisfy `lt y x` — in particular before every element with
an equal key, preserving original relative order. -/
def stableInsert (lt : α → α → Bool) (x : α) : List α → List α
  | [] => [x]
  | y :: ys => if lt y x then y :: stableInsert lt x ys else x :: y :: ys

/-- A stable sort: Python's `sorted` is specified to be stable, and a stable
sort by a total preorder is unique, so this insertion sort computes the same
list as CPython's timsort. -/
def stableSort (lt : α → α → Bool) : List α → List α
  | [] => []
  | x :: xs => stableInsert lt x (stableSort lt xs)

/-- `y` sorts strictly before `x` for `sorted(..., key=..., reverse=flag)`:
key order for ascending, reversed comparisons for descending (ties keep
original order in both directions). -/
def viewLt (col : Nat) (reverse : Bool) (y x : BookRec) : Bool :=
  if reverse then pyStrLt (sortKey col x) (sortKey col y)
  else pyStrLt (sortKey col y) (sortKey col x)

/-- `sorted(self.current_data, key=lambda x: str(x[col_index]).lower(),
reverse=self.sort_reverse)`. -/
def pySortedView (col : Nat) (reverse : Bool) (l : List BookRec) : List BookRec :=
  stableSort (viewLt col reverse) l

/-- The sort-relevant state of the table UI: `self.sort_column` (None until
the first click), `self.sort_reverse`, `self.current_data`. -/
structure UIState where
  sortColumn : Option Nat
  sortReverse : Bool
  currentData : List BookRec
deriving DecidableEq, Repr

/-- `sort_by_column` (src/main.py:226-248 = src/books-viewer/common_ui.py:251-271):
toggle the direction when the same column is clicked again, else select the
new column ascending; then stable-sort the displayed data by the
case-insensitive string form of the column. -/
def sort_by_column (st : UIState) (col : Nat) : UIState :=
  let newReverse := if st.sortColumn = some col then !st.sortReverse else false
  { sortColumn := some col
    sortReverse := newReverse
    currentData := pySortedView col newReverse st.currentData }

/-! ## Specification-side definitions (from the claim wording, for
refinement comparisons) -/

/-- `p` is a prefix of `s` up to ASCII case. -/
def isPrefixCI : List Char → List Char → Bool
  | [], _ => true
  | _ :: _, [] => false
  | c :: p, d :: s => (c.toLower = d.toLower) && isPrefixCI p s

/-- `p` occurs in `s` as a contiguous substring, up to ASCII case. -/
def substrCIChars : List Char → List Char → Bool
  | p, [] => isPrefixCI p []
  | p, d :: s' => isPrefixCI p (d :: s') || substrCIChars p s'

/-- The claim's field-matching relation: the criterion is a case-insensitive
literal substring of the field's string form. -/
def substrCI (crit s : String) : Bool :=
  substrCIChars crit.data s.data

/-- `crit` contains no SQL LIKE metacharacter (`%` or `_`). -/
def noMeta (crit : String) : Bool :=
  crit.data.all (fun c => c ≠ '%' && c ≠ '_')

/-- The claim's field-matching relation on a nullable field: a missing
(NULL) field never matches a non-empty criterion. -/
def specFieldMatch (crit : String) (field : Option String) : Bool :=
  match field with
  | none => false
  | some s => substrCI crit s

/-- The claim's record predicate for `filter_records`: each non-empty
single-value criterion must be a case-insensitive literal substring of the
field's string form; each non-empty stripped keyword token must be one of the
Keywords field; a missing (NULL) field never matches a non-empty criterion. -/
def specPasses (f : Filters) (r : Row) : Bool :=
  (f.isbn == "" || specFieldMatch f.isbn r.isbn) &&
  (f.title == "" || specFieldMatch f.title r.title) &&
  (f.author == "" || specFieldMatch f.author r.author) &&
  (f.publisher == "" || specFieldMatch f.publisher r.publisher) &&
  (f.year == "" || specFieldMatch f.year r.year) &&
  (f.signature == "" || specFieldMatch f.signature r.signature) &&
  (f.keywords == "" || (keywordTokens f.keywords).all (fun kw => specFieldMatch kw r.keywords))

/-- The store-wide Signature invariant of the spec: at most one record may
hold any given non-empty Signature; rows whose stored signature is NULL/NaN
are exempt. -/
def SigInv (store : List Row) : Prop :=
  store.Pairwise (fun a b => a.signature = none ∨ a.signature ≠ b.signature)

instance (store : List Row) : Decidable (SigInv store) := by
  unfold SigInv
  infer_instance

example :
    DatabaseManager.add_record [] ⟨"1", "t", "a", "p", "2000", "S", "d", "k"⟩ =
      .ok [⟨some "1", some "t", some "a", some "p", some "2000", some "S", some "d", some "k"⟩] := by
  rfl

example :
    DatabaseManager.add_record
      [⟨some "1", some "t", some "a", some "p", some "2000", some "S", some "d", some "k"⟩]
      ⟨"2", "u", "b", "q", "2001", "S", "e", "l"⟩ = .error .duplicateSignature := by
  rfl

example :
    DatabaseManager.add_record
      [⟨some "1", some "t", some "a", some "p", some "2000", some " ", some "d", some "k"⟩]
      ⟨"2", "u", "b", "q", "2001", " ", "e", "l"⟩ = .error .integrityError := by
  rfl

example : likeCond (some "abc") "a_c" = true := by rfl
example : substrCI "a_c" "abc" = false := by rfl
example : likeCond (some "xAbCy") "abc" = true := by rfl
example : keywordTokens "a, b," = ["a", "b"] := by rfl
example : pyStrip "  a b " = "a b" := by rfl
example :
    LibraryManager.import_csv_merge []
      [⟨some "1", none, none, none, none, some "S", none, none⟩,
       ⟨some "2", none, none, none, none, some "S", none, none⟩] =
      [⟨some "1", none, none, none, none, some "S", none, none⟩,
       ⟨some "2", none, none, none, none, some "S", none, none⟩] := by
  rfl

/-! ## Helper lemmas -/

theorem sigExists_iff (store : List Row) (s : String) :
    DatabaseManager.sigExists store s = true ↔ ∃ r ∈ store, r.signature = some s := by
  simp [DatabaseManager.sigExists, List.any_eq_true]

theorem sigExists_eq_false_iff (store : List Row) (s : String) :
    DatabaseManager.sigExists store s = false ↔ ∀ r ∈ store, r.signature ≠ some s := by
  rw [← Bool.not_eq_true, sigExists_iff]
  push_neg
  rfl

theorem insertRow_ok_of_none (store : List Row) (r : Row) (h : r.signature = none) :
    DatabaseManager.insertRow store r = .ok (store ++ [r]) := by
  simp [DatabaseManager.insertRow, h]

theorem insertRow_ok_of_no_collision (store : List Row) (r : Row)
    (h : ∀ s, r.signature = some s → DatabaseManager.sigExists store s = false) :
    DatabaseManager.insertRow store r = .ok (store ++ [r]) := by
  unfold DatabaseManager.insertRow
  cases hr : r.signature with
  | none => rfl
  | some s => simp [h s hr]

/-! ## C2 — add_record duplicate handling -/

/-- C2, counterexample: in the relational backend a whitespace-only (hence
non-empty) signature skips the application-level duplicate check
(`if signature and signature.strip()`), so adding a second record whose
signature exactly equals an existing whitespace signature fails with the
UNIQUE-constraint `sqlite3.IntegrityError`, not the documented
`DuplicateSignatureError` (`ValueError`).  The colliding store is itself
reachable by `add_record`. -/
theorem add_record_dup_counterexample :
    DatabaseManager.add_record [] ⟨"1", "t", "a", "p", "2000", " ", "d", "k"⟩ =
      .ok [⟨some "1", some "t", some "a", some "p", some "2000", some " ", some "d", some "k"⟩] ∧
    (" " : String) ≠ "" ∧
    DatabaseManager.add_record
      [⟨some "1", some "t", some "a", some "p", some "2000", some " ", some "d", some "k"⟩]
      ⟨"2", "u", "b", "q", "2001", " ", "e", "l"⟩ = .error .integrityError ∧
    (Except.error Err.integrityError : Except Err (List Row)) ≠ .error .duplicateSignature := by
  refine ⟨by rfl, by decide, by rfl, by simp⟩

/-- C2, amended: `add_record` fails with `DuplicateSignatureError` on an
exact non-empty signature collision whenever the signature has non-whitespace
content (relational backend) or is merely non-empty (text backend); a
whitespace-only non-empty signature bypasses the relational backend's check
and the collision surfaces as the UNIQUE-constraint IntegrityError instead.
When no exact collision exists — the new signature is empty or no stored
record has the same value — `add_record` appends the new record (signature
stored as NULL when empty) and the store is otherwise unchanged.  A failure
leaves the store unchanged (every raise happens before the INSERT, or the
INSERT itself fails atomically). -/
theorem add_record_amended (store : List Row) (b : BookRec) :
    (b.signature ≠ "" → pyStrip b.signature ≠ "" →
      DatabaseManager.sigExists store b.signature = true →
      DatabaseManager.add_record store b = .error .duplicateSignature) ∧
    (b.signature ≠ "" → pyStrip b.signature = "" →
      DatabaseManager.sigExists store b.signature = true →
      DatabaseManager.add_record store b = .error .integrityError) ∧
    (b.signature = "" ∨ DatabaseManager.sigExists store b.signature = false →
      DatabaseManager.add_record store b = .ok (store ++ [mkRow b])) ∧
    (b.signature ≠ "" → LibraryManager.sigExists store b.signature = true →
      LibraryManager.add_record store b = .error .duplicateSignature) ∧
    (b.signature = "" ∨ LibraryManager.sigExists store b.signature = false →
      LibraryManager.add_record store b = .ok (store ++ [mkRow b])) := by
  refine ⟨?_, ?_, ?_, ?_, ?_⟩
  · intro hne hstrip hex
    simp [DatabaseManager.add_record, hne, hstrip, hex]
  · intro hne hstrip hex
    simp [DatabaseManager.add_record, hne, hstrip, DatabaseManager.insertRow, mkRow, hex]
  · intro h
    cases h with
    | inl h =>
      by_cases hstrip : pyStrip b.signature = ""
      · simp [DatabaseManager.add_record, h, DatabaseManager.insertRow, mkRow]
      · simp [DatabaseManager.add_record, h, hstrip, DatabaseManager.insertRow, mkRow]
    | inr h =>
      by_cases hne : b.signature = ""
      · simp [DatabaseManager.add_record, hne, DatabaseManager.insertRow, mkRow]
      · by_cases hstrip : pyStrip b.signature = ""
        · simp [DatabaseManager.add_record, hne, hstrip, DatabaseManager.insertRow, mkRow, h]
        · simp [DatabaseManager.add_record, hne, hstrip, DatabaseManager.insertRow, mkRow, h]
  · intro hne hex
    simp [LibraryManager.add_record, hne, hex]
  · intro h
    cases h with
    | inl h => simp [LibraryManager.add_record, h]
    | inr h => simp [LibraryManager.add_record, h]

/-- Witness for `add_record_amended` at a concrete collision. -/
theorem add_record_amended_witness :
    DatabaseManager.add_record
      [⟨some "1", some "t", some "a", some "p", some "2000", some "S1", some "d", some "k"⟩]
      ⟨"2", "u", "b", "q", "2001", "S1", "e", "l"⟩ = .error .duplicateSignature :=
  (add_record_amended
    [⟨some "1", some "t", some "a", some "p", some "2000", some "S1", some "d", some "k"⟩]
    ⟨"2", "u", "b", "q", "2001", "S1", "e", "l"⟩).1 (by decide) (by decide) (by rfl)

/-! ## C1 — the store-wide Signature-uniqueness invariant -/

theorem sigExistsExcept_iff (store : List Row) (i : Nat) (s : String) :
    DatabaseManager.sigExistsExcept store i s = true ↔
      ∃ j, ∃ _ : j < store.length, j ≠ i ∧ store[j].signature = some s := by
  simp only [DatabaseManager.sigExistsExcept, List.any_eq_true, Prod.exists,
    List.mk_mem_enum_iff_getElem?, List.getElem?_eq_some_iff, bne_iff_ne, ne_eq,
    Bool.and_eq_true, beq_iff_eq]
  constructor
  · rintro ⟨j, r, ⟨h, hget⟩, hji, hsig⟩
    exact ⟨j, h, hji, by rw [hget]; exact hsig⟩
  · rintro ⟨j, h, hji, hsig⟩
    exact ⟨j, store[j], ⟨h, rfl⟩, hji, hsig⟩

theorem sigExistsExcept_eq_false_iff (store : List Row) (i : Nat) (s : String) :
    DatabaseManager.sigExistsExcept store i s = false ↔
      ∀ j, ∀ h : j < store.length, j ≠ i → (store.get ⟨j, h⟩).signature ≠ some s := by
  rw [← Bool.not_eq_true, sigExistsExcept_iff]
  push_neg
  simp only [List.get_eq_getElem]

theorem sigInv_append_single (store : List Row) (r : Row) (hInv : SigInv store)
    (hno : ∀ s, r.signature = some s → ∀ row ∈ store, row.signature ≠ some s) :
    SigInv (store ++ [r]) := by
  unfold SigInv at *
  rw [List.pairwise_append]
  refine ⟨hInv, List.pairwise_singleton _ _, ?_⟩
  intro a ha b hb
  simp only [List.mem_singleton] at hb
  subst hb
  cases hsig : a.signature with
  | none => exact Or.inl rfl
  | some t =>
    refine Or.inr (fun hEq => ?_)
    exact hno t hEq.symm a ha hsig

theorem insertRow_ok_shape (store : List Row) (r : Row) (out : List Row)
    (h : DatabaseManager.insertRow store r = .ok out) :
    out = store ++ [r] ∧
      ∀ s, r.signature = some s → DatabaseManager.sigExists store s = false := by
  unfold DatabaseManager.insertRow at h
  cases hr : r.signature with
  | none =>
    rw [hr] at h
    simp only [Except.ok.injEq] at h
    exact ⟨h.symm, fun s hs => by simp [hr] at hs⟩
  | some s =>
    rw [hr] at h
    by_cases hex : DatabaseManager.sigExists store s
    · simp [hex] at h
    · simp only [hex, Bool.false_eq_true, if_false, Except.ok.injEq] at h
      refine ⟨h.symm, fun t ht => ?_⟩
      injection ht with hst
      subst hst
      simpa using hex

theorem sigInv_insertRow (store : List Row) (r : Row) (out : List Row)
    (h : DatabaseManager.insertRow store r = .ok out) (hInv : SigInv store) :
    SigInv out := by
  obtain ⟨rfl, hno⟩ := insertRow_ok_shape store r out h
  refine sigInv_append_single store r hInv (fun s hs row hrow => ?_)
  exact (sigExists_eq_false_iff store s).mp (hno s hs) row hrow

theorem sigInv_set (store : List Row) (i : Nat) (r' : Row) (hInv : SigInv store)
    (hno : ∀ s, r'.signature = some s → DatabaseManager.sigExistsExcept store i s = false) :
    SigInv (store.set i r') := by
  unfold SigInv at *
  rw [List.pairwise_iff_getElem] at hInv ⊢
  intro p q hp hq hpq
  have hp' : p < store.length := by simpa using hp
  have hq' : q < store.length := by simpa using hq
  by_cases hpi : p = i
  · subst hpi
    rw [List.getElem_set_self hp, List.getElem_set_ne (Nat.ne_of_lt hpq)]
    cases hsig : r'.signature with
    | none => exact Or.inl rfl
    | some s =>
      refine Or.inr (fun hEq => ?_)
      have hmem := (sigExistsExcept_eq_false_iff store p s).mp (hno s hsig) q hq'
        (Nat.ne_of_gt hpq)
      simp only [List.get_eq_getElem] at hmem
      exact hmem hEq.symm
  · by_cases hqi : q = i
    · subst hqi
      rw [List.getElem_set_ne (fun hh => hpi hh.symm), List.getElem_set_self hq]
      cases hsig : (store.get ⟨p, hp'⟩).signature with
      | none => exact Or.inl rfl
      | some s =>
        refine Or.inr (fun hEq => ?_)
        have hmem := (sigExistsExcept_eq_false_iff store q s).mp
          (hno s hEq.symm) p hp' hpi
        simp only [List.get_eq_getElem] at hmem
        exact hmem hsig
    · rw [List.getElem_set_ne (fun hh => hpi hh.symm),
          List.getElem_set_ne (fun hh => hqi hh.symm)]
      exact hInv p q hp' hq' hpq

theorem db_add_ok_inversion (store : List Row) (b : BookRec) (out : List Row)
    (h : DatabaseManager.add_record store b = .ok out) :
    DatabaseManager.insertRow store (mkRow b) = .ok out := by
  unfold DatabaseManager.add_record at h
  by_cases hc : b.signature ≠ "" ∧ pyStrip b.signature ≠ ""
  · rw [if_pos hc] at h
    by_cases hex : DatabaseManager.sigExists store b.signature
    · simp [hex] at h
    · rwa [if_neg (by simpa using hex)] at h
  · rwa [if_neg hc] at h

theorem updateRowAt_ok_shape (store : List Row) (i : Nat) (b : BookRec) (out : List Row)
    (h : DatabaseManager.updateRowAt store i b = .ok out) :
    out = store.set i (mkRow b) ∧
      ∀ s, (mkRow b).signature = some s →
        DatabaseManager.sigExistsExcept store i s = false := by
  unfold DatabaseManager.updateRowAt at h
  split at h
  · rename_i s hsig
    by_cases hex : DatabaseManager.sigExistsExcept store i s = true
    · rw [if_pos hex] at h
      cases h
    · rw [if_neg hex] at h
      simp only [Except.ok.injEq] at h
      refine ⟨h.symm, fun t ht => ?_⟩
      rw [hsig] at ht
      injection ht with hst
      subst hst
      simpa using hex
  · rename_i hsig
    simp only [Except.ok.injEq] at h
    exact ⟨h.symm, fun s hs => by rw [hsig] at hs; cases hs⟩

theorem db_update_ok_inversion (store : List Row) (b : BookRec) (orig : String)
    (out : List Row) (h : DatabaseManager.update_record store b orig = .ok out) :
    ∃ i, ∃ _ : i < store.length,
      store.findIdx? (fun r => r.isbn == some (if orig ≠ "" then orig else b.isbn)) = some i ∧
      out = store.set i (mkRow b) ∧
      ∀ s, (mkRow b).signature = some s →
        DatabaseManager.sigExistsExcept store i s = false := by
  simp only [DatabaseManager.update_record] at h
  split at h
  · cases h
  · rename_i i hfind
    have hi : i < store.length := (List.findIdx?_eq_some_iff_getElem.mp hfind).1
    refine ⟨i, hi, hfind, ?_⟩
    refine updateRowAt_ok_shape store i b out ?_
    by_cases hc : b.signature ≠ "" ∧ pyStrip b.signature ≠ ""
    · rw [if_pos hc] at h
      by_cases hex : DatabaseManager.sigExistsExcept store i b.signature = true
      · rw [if_pos hex] at h
        cases h
      · rwa [if_neg hex] at h
    · rwa [if_neg hc] at h

theorem csv_add_ok_inversion (store : List Row) (b : BookRec) (out : List Row)
    (h : LibraryManager.add_record store b = .ok out) :
    out = store ++ [mkRow b] ∧
      ∀ s, (mkRow b).signature = some s → LibraryManager.sigExists store s = false := by
  unfold LibraryManager.add_record at h
  by_cases hc : b.signature ≠ "" ∧ LibraryManager.sigExists store b.signature = true
  · rw [if_pos hc] at h
    cases h
  · rw [if_neg hc] at h
    simp only [Except.ok.injEq] at h
    refine ⟨h.symm, fun s hs => ?_⟩
    unfold mkRow at hs
    by_cases hb : b.signature = ""
    · simp [hb] at hs
    · simp only [hb, if_false] at hs
      injection hs with hbs
      subst hbs
      by_cases hT : LibraryManager.sigExists store b.signature = true
      · exact absurd ⟨hb, hT⟩ hc
      · simpa using hT

theorem csv_update_ok_inversion (store : List Row) (b : BookRec) (orig : String)
    (out : List Row) (h : LibraryManager.update_record store b orig = .ok out) :
    ∃ i, ∃ _ : i < store.length,
      store.findIdx?
        (fun r => pyStrip (strOfOpt r.isbn) == pyStrip (if orig ≠ "" then orig else b.isbn)) =
        some i ∧
      out = store.set i (mkRow b) ∧
      ∀ s, (mkRow b).signature = some s →
        LibraryManager.sigExistsExcept store i s = false := by
  simp only [LibraryManager.update_record] at h
  split at h
  · cases h
  · rename_i i hfind
    have hi : i < store.length := (List.findIdx?_eq_some_iff_getElem.mp hfind).1
    refine ⟨i, hi, hfind, ?_⟩
    by_cases hc : b.signature ≠ "" ∧ LibraryManager.sigExistsExcept store i b.signature = true
    · rw [if_pos hc] at h
      cases h
    · rw [if_neg hc] at h
      simp only [Except.ok.injEq] at h
      refine ⟨h.symm, fun s hs => ?_⟩
      unfold mkRow at hs
      by_cases hb : b.signature = ""
      · simp [hb] at hs
      · simp only [hb, if_false] at hs
        injection hs with hbs
        subst hbs
        by_cases hT : LibraryManager.sigExistsExcept store i b.signature = true
        · exact absurd ⟨hb, hT⟩ hc
        · simpa using hT

/-- The text-backend and relational-backend exact signature searches are the
same predicate over the modelled store. -/
theorem csv_sigExists_eq (store : List Row) (s : String) :
    LibraryManager.sigExists store s = DatabaseManager.sigExists store s := rfl

theorem csv_sigExistsExcept_eq (store : List Row) (i : Nat) (s : String) :
    LibraryManager.sigExistsExcept store i s = DatabaseManager.sigExistsExcept store i s := rfl

theorem sigInv_tryInsert (acc : Nat × Nat × List Row) (r : Row)
    (hInv : SigInv acc.2.2) : SigInv (DatabaseManager.tryInsert acc r).2.2 := by
  unfold DatabaseManager.tryInsert
  cases hins : DatabaseManager.insertRow acc.2.2 r with
  | ok st' => exact sigInv_insertRow acc.2.2 r st' hins hInv
  | error e => exact hInv

theorem sigInv_importStep (sigs : List String) (acc : Nat × Nat × List Row) (r : Row)
    (hInv : SigInv acc.2.2) : SigInv (DatabaseManager.importStep sigs acc r).2.2 := by
  unfold DatabaseManager.importStep
  split
  · rename_i s hsig
    by_cases hskip : sigs.contains (pyStrip s) = true
    · rw [if_pos hskip]
      exact hInv
    · rw [if_neg hskip]
      exact sigInv_tryInsert acc r hInv
  · exact sigInv_tryInsert acc r hInv

theorem sigInv_import_foldl (sigs : List String) (src : List Row) :
    ∀ acc : Nat × Nat × List Row, SigInv acc.2.2 →
      SigInv (src.foldl (DatabaseManager.importStep sigs) acc).2.2 := by
  induction src with
  | nil => intro acc h; exact h
  | cons r rest ih =>
    intro acc h
    exact ih _ (sigInv_importStep sigs acc r h)

/-- C1, counterexample: starting from the empty store (which satisfies the
invariant), the text backend's `import_csv_merge` of a source holding two
records with the same novel non-empty Signature `"S"` inserts both, so the
resulting store violates the store-wide uniqueness invariant. -/
theorem sig_invariant_counterexample :
    SigInv ([] : List Row) ∧
    ¬ SigInv (LibraryManager.import_csv_merge []
      [⟨some "1", none, none, none, none, some "S", none, none⟩,
       ⟨some "2", none, none, none, none, some "S", none, none⟩]) := by
  constructor
  · decide
  · intro h
    have heq : LibraryManager.import_csv_merge []
        [⟨some "1", none, none, none, none, some "S", none, none⟩,
         ⟨some "2", none, none, none, none, some "S", none, none⟩] =
        [⟨some "1", none, none, none, none, some "S", none, none⟩,
         ⟨some "2", none, none, none, none, some "S", none, none⟩] := by rfl
    rw [heq] at h
    unfold SigInv at h
    rcases List.pairwise_cons.mp h with ⟨hrel, -⟩
    have := hrel _ (List.mem_singleton.mpr rfl)
    simp at this

/-- C1, amended: from any store satisfying the Signature-uniqueness
invariant, the invariant is preserved by every successful `add_record`,
`update_record` and `delete_record` of both backends and by the relational
backend's `import_from_tsv` (whose UNIQUE constraint also rejects duplicates
arising within the source); a failing operation leaves the store unchanged,
so the invariant also survives failures.  The one exception is the text
backend's `import_csv_merge`, which screens source signatures only against
the pre-import store and may insert two source records sharing the same
novel non-empty Signature (see the counterexample). -/
theorem sig_invariant_amended (store : List Row) (hInv : SigInv store) :
    (∀ b out, DatabaseManager.add_record store b = .ok out → SigInv out) ∧
    (∀ b orig out, DatabaseManager.update_record store b orig = .ok out → SigInv out) ∧
    (∀ i out, DatabaseManager.delete_record store i = .ok out → SigInv out) ∧
    (∀ src, SigInv (DatabaseManager.import_from_tsv store src).2.2) ∧
    (∀ b out, LibraryManager.add_record store b = .ok out → SigInv out) ∧
    (∀ b orig out, LibraryManager.update_record store b orig = .ok out → SigInv out) ∧
    (∀ i out, LibraryManager.delete_record store i = .ok out → SigInv out) := by
  refine ⟨?_, ?_, ?_, ?_, ?_, ?_, ?_⟩
  · intro b out h
    exact sigInv_insertRow store (mkRow b) out (db_add_ok_inversion store b out h) hInv
  · intro b orig out h
    obtain ⟨i, hi, -, rfl, hno⟩ := db_update_ok_inversion store b orig out h
    exact sigInv_set store i (mkRow b) hInv hno
  · intro i out h
    simp only [DatabaseManager.delete_record] at h
    split at h
    · simp only [Except.ok.injEq] at h
      subst h
      exact (List.Pairwise.sublist (List.filter_sublist store) hInv : SigInv _)
    · cases h
  · intro src
    exact sigInv_import_foldl (DatabaseManager.storedSigs store) src (0, 0, store) hInv
  · intro b out h
    obtain ⟨rfl, hno⟩ := csv_add_ok_inversion store b out h
    refine sigInv_append_single store (mkRow b) hInv (fun s hs row hrow => ?_)
    have hfalse := hno s hs
    rw [csv_sigExists_eq] at hfalse
    exact (sigExists_eq_false_iff store s).mp hfalse row hrow
  · intro b orig out h
    obtain ⟨i, hi, -, rfl, hno⟩ := csv_update_ok_inversion store b orig out h
    refine sigInv_set store i (mkRow b) hInv (fun s hs => ?_)
    have hfalse := hno s hs
    rwa [csv_sigExistsExcept_eq] at hfalse
  · intro i out h
    unfold LibraryManager.delete_record at h
    by_cases hlt : i < store.length
    · rw [if_pos hlt] at h
      simp only [Except.ok.injEq] at h
      subst h
      exact (List.Pairwise.sublist (List.eraseIdx_sublist store i) hInv : SigInv _)
    · rw [if_neg hlt] at h
      cases h

/-- Witness for `sig_invariant_amended`: the invariant survives a concrete
relational import whose source contains a within-source duplicate. -/
theorem sig_invariant_amended_witness :
    SigInv (DatabaseManager.import_from_tsv []
      [⟨some "1", none, none, none, none, some "S", none, none⟩,
       ⟨some "2", none, none, none, none, some "S", none, none⟩]).2.2 :=
  (sig_invariant_amended [] (by decide)).2.2.2.1
    [⟨some "1", none, none, none, none, some "S", none, none⟩,
     ⟨some "2", none, none, none, none, some "S", none, none⟩]

/-! ## C5 — update_record lookup semantics -/

/-- C5, counterexample: the relational backend's lookup is an exact
(untrimmed) string comparison `WHERE ISBN = ?`.  With a stored ISBN
`" 123"` (reachable by `add_record`, which stores the ISBN verbatim) and
`lookup_key = "123"`, the trimmed string forms agree, yet `update_record`
fails with `RecordNotFoundError` instead of locating the record — the text
backend, which does trim both sides, locates and updates it. -/
theorem update_lookup_counterexample :
    pyStrip " 123" = pyStrip "123" ∧
    DatabaseManager.update_record
      [⟨some " 123", some "t", some "a", some "p", some "2000", none, some "d", some "k"⟩]
      ⟨"123", "u", "b", "q", "2001", "", "e", "l"⟩ "123" = .error .notFound ∧
    LibraryManager.update_record
      [⟨some " 123", some "t", some "a", some "p", some "2000", none, some "d", some "k"⟩]
      ⟨"123", "u", "b", "q", "2001", "", "e", "l"⟩ "123" =
      .ok [⟨some "123", some "u", some "b", some "q", some "2001", none, some "e", some "l"⟩] :=
  ⟨rfl, rfl, rfl⟩

/-- C5, amended: for a non-empty `lookup_key`, `update_record` locates its
target as the first record whose ISBN matches `lookup_key` — by exact
(untrimmed) string equality against the stored ISBN in the relational
backend, and by comparing the trimmed string forms (a missing ISBN printing
as "nan") in the text backend — and fails with `RecordNotFoundError`,
leaving the store unchanged, whenever no record so matches.  (When
`lookup_key` is empty/None, both backends fall back to looking up the *new*
ISBN supplied in `data`.) -/
theorem update_lookup_amended (store : List Row) (b : BookRec) (orig : String) :
    (orig ≠ "" → (∀ r ∈ store, r.isbn ≠ some orig) →
      DatabaseManager.update_record store b orig = .error .notFound) ∧
    (orig ≠ "" → (∀ r ∈ store, pyStrip (strOfOpt r.isbn) ≠ pyStrip orig) →
      LibraryManager.update_record store b orig = .error .notFound) ∧
    (∀ out, DatabaseManager.update_record store b orig = .ok out →
      ∃ i, ∃ hi : i < store.length,
        store.findIdx? (fun r => r.isbn == some (if orig ≠ "" then orig else b.isbn)) = some i ∧
        out = store.set i (mkRow b) ∧
        (store.get ⟨i, hi⟩).isbn = some (if orig ≠ "" then orig else b.isbn)) ∧
    (∀ out, LibraryManager.update_record store b orig = .ok out →
      ∃ i, ∃ hi : i < store.length,
        store.findIdx?
          (fun r => pyStrip (strOfOpt r.isbn) == pyStrip (if orig ≠ "" then orig else b.isbn)) =
          some i ∧
        out = store.set i (mkRow b) ∧
        pyStrip (strOfOpt (store.get ⟨i, hi⟩).isbn) =
          pyStrip (if orig ≠ "" then orig else b.isbn)) := by
  refine ⟨?_, ?_, ?_, ?_⟩
  · intro ho hno
    have hnone : store.findIdx? (fun r => r.isbn == some (if orig ≠ "" then orig else b.isbn)) =
        none := by
      rw [List.findIdx?_eq_none_iff]
      intro r hr
      simp only [if_pos ho, beq_iff_eq, Bool.not_eq_true]
      exact beq_eq_false_iff_ne.mpr (hno r hr)
    simp only [DatabaseManager.update_record]
    rw [hnone]
  · intro ho hno
    have hnone : store.findIdx?
        (fun r => pyStrip (strOfOpt r.isbn) == pyStrip (if orig ≠ "" then orig else b.isbn)) =
        none := by
      rw [List.findIdx?_eq_none_iff]
      intro r hr
      simp only [if_pos ho]
      exact beq_eq_false_iff_ne.mpr (hno r hr)
    simp only [LibraryManager.update_record]
    rw [hnone]
  · intro out h
    obtain ⟨i, hi, hfind, hout, -⟩ := db_update_ok_inversion store b orig out h
    refine ⟨i, hi, hfind, hout, ?_⟩
    have := (List.findIdx?_eq_some_iff_getElem.mp hfind).2.1
    simpa [List.get_eq_getElem] using this
  · intro out h
    obtain ⟨i, hi, hfind, hout, -⟩ := csv_update_ok_inversion store b orig out h
    refine ⟨i, hi, hfind, hout, ?_⟩
    have := (List.findIdx?_eq_some_iff_getElem.mp hfind).2.1
    simpa [List.get_eq_getElem] using this

/-- Witness for `update_lookup_amended`: a concrete miss in the relational
backend. -/
theorem update_lookup_amended_witness :
    DatabaseManager.update_record
      [⟨some "9", some "t", some "a", some "p", some "2000", none, some "d", some "k"⟩]
      ⟨"7", "u", "b", "q", "2001", "", "e", "l"⟩ "8" = .error .notFound :=
  (update_lookup_amended
    [⟨some "9", some "t", some "a", some "p", some "2000", none, some "d", some "k"⟩]
    ⟨"7", "u", "b", "q", "2001", "", "e", "l"⟩ "8").1 (by decide)
    (by intro r hr; simp only [List.mem_singleton] at hr; subst hr; decide)

/-! ## C6 — update_record replaces all eight fields of the matched record -/

theorem sanitize_mkRow (b : BookRec) : sanitizeRow (mkRow b) = b := by
  cases b with
  | mk i t a p y s d k =>
    by_cases hs : s = ""
    · simp [sanitizeRow, mkRow, hs]
    · simp [sanitizeRow, mkRow, hs]

theorem count_eq_one_of_unique_index {α : Type} [DecidableEq α] (l : List α) (b : α)
    (i : Nat) (hi : i < l.length) (hb : l.get ⟨i, hi⟩ = b)
    (huniq : ∀ j, ∀ hj : j < l.length, j ≠ i → l.get ⟨j, hj⟩ ≠ b) :
    l.count b = 1 := by
  induction l generalizing i with
  | nil => cases hi
  | cons x xs ih =>
    cases i with
    | zero =>
      simp only [List.get_eq_getElem, List.getElem_cons_zero] at hb
      subst hb
      rw [List.count_cons_self]
      have hz : xs.count x = 0 := by
        rw [List.count_eq_zero]
        intro hmem
        obtain ⟨j, hj, hget⟩ := List.mem_iff_getElem.mp hmem
        exact huniq (j + 1) (by simpa using Nat.succ_lt_succ hj) (Nat.succ_ne_zero j)
          (by simpa [List.get_eq_getElem] using hget)
      omega
    | succ k =>
      have hk : k < xs.length := by simpa using Nat.lt_of_succ_lt_succ hi
      have hx : x ≠ b := by
        have := huniq 0 (Nat.zero_lt_succ _) (Nat.succ_ne_zero k).symm
        simpa [List.get_eq_getElem] using this
      rw [List.count_cons, if_neg (by simpa using hx), Nat.add_zero]
      refine ih k hk (by simpa [List.get_eq_getElem] using hb) ?_
      intro j hj hji hget
      exact huniq (j + 1) (by simpa using Nat.succ_lt_succ hj)
        (fun hEq => hji (Nat.succ_injective hEq))
        (by simpa [List.get_eq_getElem] using hget)

/-- C6, confirmed: if the store holds exactly one record whose stored ISBN
equals the (non-empty) lookup key, a successful relational `update_record`
replaces all eight fields of exactly that record with `data` (the signature
reading back as supplied, empty stored as NULL), leaves every other record
untouched, and the subsequent `get_all_records` shows the new field values
at that position, no residual record with the stale pre-edit values (when
the values actually changed), and exactly one record carrying the new
values (when no other record coincidentally equals them). -/
theorem update_replaces_all_fields (store : List Row) (b : BookRec) (lookup : String)
    (i : Nat) (hi : i < store.length) (out : List Row)
    (hlk : lookup ≠ "")
    (hisbn : (store.get ⟨i, hi⟩).isbn = some lookup)
    (huniq : ∀ j, ∀ hj : j < store.length, j ≠ i → (store.get ⟨j, hj⟩).isbn ≠ some lookup)
    (hok : DatabaseManager.update_record store b lookup = .ok out) :
    out = store.set i (mkRow b) ∧
    DatabaseManager.get_all_records out =
      (DatabaseManager.get_all_records store).set i b ∧
    (∀ j, ∀ hj : j < store.length, j ≠ i →
      (store.set i (mkRow b)).get ⟨j, by simpa [List.length_set] using hj⟩ =
        store.get ⟨j, hj⟩) ∧
    (b ≠ sanitizeRow (store.get ⟨i, hi⟩) →
      sanitizeRow (store.get ⟨i, hi⟩) ∉ DatabaseManager.get_all_records out) ∧
    ((∀ j, ∀ hj : j < store.length, j ≠ i → sanitizeRow (store.get ⟨j, hj⟩) ≠ b) →
      (DatabaseManager.get_all_records out).count b = 1) := by
  obtain ⟨i', hi', hfind, hout, -⟩ := db_update_ok_inversion store b lookup out hok
  have hii : i' = i := by
    by_contra hne
    have hp := (List.findIdx?_eq_some_iff_getElem.mp hfind).2.1
    have : (store.get ⟨i', hi'⟩).isbn = some (if lookup ≠ "" then lookup else b.isbn) :=
      beq_iff_eq.mp (by simpa using hp)
    rw [if_pos hlk] at this
    exact huniq i' hi' hne (by simpa [List.get_eq_getElem] using this)
  have hii' : i = i' := hii.symm
  subst hii'
  subst hout
  have hlen : i < (store.set i (mkRow b)).length := by simpa [List.length_set] using hi
  have hgetall : DatabaseManager.get_all_records (store.set i (mkRow b)) =
      (DatabaseManager.get_all_records store).set i b := by
    unfold DatabaseManager.get_all_records
    rw [List.map_set]
    rw [sanitize_mkRow]
  refine ⟨rfl, hgetall, ?_, ?_, ?_⟩
  · intro j hj hji
    simp only [List.get_eq_getElem]
    rw [List.getElem_set_ne (fun hEq => hji hEq.symm)]
  · intro hchanged hmem
    rw [hgetall] at hmem
    obtain ⟨j, hj, hget⟩ := List.mem_iff_getElem.mp hmem
    by_cases hji : j = i
    · subst hji
      rw [List.getElem_set_self (by simpa [DatabaseManager.get_all_records] using hj)] at hget
      exact hchanged hget
    · have hj' : j < store.length := by
        simpa [DatabaseManager.get_all_records, List.length_set] using hj
      rw [List.getElem_set_ne (fun hEq => hji hEq.symm)] at hget
      have hgj : sanitizeRow (store.get ⟨j, hj'⟩) = sanitizeRow (store.get ⟨i, hi⟩) := by
        simpa [DatabaseManager.get_all_records, List.get_eq_getElem] using hget
      have hisbnj : (store.get ⟨j, hj'⟩).isbn.getD "" = lookup := by
        have h2 := congrArg BookRec.isbn hgj
        simp only [sanitizeRow] at h2
        rw [h2, hisbn]
        rfl
      cases hcase : (store.get ⟨j, hj'⟩).isbn with
      | none =>
        rw [hcase] at hisbnj
        exact hlk (by simpa using hisbnj.symm)
      | some x =>
        rw [hcase] at hisbnj
        simp only [Option.getD_some] at hisbnj
        subst hisbnj
        exact huniq j hj' hji (by simpa [List.get_eq_getElem] using hcase)
  · intro hothers
    rw [hgetall]
    have hleni : i < ((DatabaseManager.get_all_records store).set i b).length := by
      simpa [DatabaseManager.get_all_records, List.length_set] using hi
    refine count_eq_one_of_unique_index _ b i hleni ?_ ?_
    · simp only [List.get_eq_getElem]
      rw [List.getElem_set_self hleni]
    · intro j hj hji
      have hj' : j < store.length := by
        simpa [DatabaseManager.get_all_records, List.length_set] using hj
      simp only [List.get_eq_getElem]
      rw [List.getElem_set_ne (fun hEq => hji hEq.symm)]
      have := hothers j hj' hji
      simpa [DatabaseManager.get_all_records, List.get_eq_getElem] using this

/-- Witness for `update_replaces_all_fields` at a concrete two-record store. -/
theorem update_replaces_all_fields_witness :
    ([⟨some "1", some "t2", some "a2", some "p2", some "2002", some "Z", some "d2", some "k2"⟩,
      ⟨some "9", some "x", some "y", some "z", some "1999", some "W", some "v", some "u"⟩] :
      List Row) =
      ([⟨some "1", some "t", some "a", some "p", some "2000", none, some "d", some "k"⟩,
        ⟨some "9", some "x", some "y", some "z", some "1999", some "W", some "v", some "u"⟩] :
        List Row).set 0
        (mkRow ⟨"1", "t2", "a2", "p2", "2002", "Z", "d2", "k2"⟩) :=
  (update_replaces_all_fields
    [⟨some "1", some "t", some "a", some "p", some "2000", none, some "d", some "k"⟩,
     ⟨some "9", some "x", some "y", some "z", some "1999", some "W", some "v", some "u"⟩]
    ⟨"1", "t2", "a2", "p2", "2002", "Z", "d2", "k2"⟩ "1" 0 (by decide)
    [⟨some "1", some "t2", some "a2", some "p2", some "2002", some "Z", some "d2", some "k2"⟩,
     ⟨some "9", some "x", some "y", some "z", some "1999", some "W", some "v", some "u"⟩]
    (by decide) (by decide)
    (by
      intro j hj hji
      cases j with
      | zero => exact absurd rfl hji
      | succ k =>
        cases k with
        | zero =>
          intro hEq
          simp [List.get_eq_getElem] at hEq
        | succ m =>
          simp only [List.length_cons, List.length_nil] at hj
          omega)
    (by rfl)).1

/-! ## C8 — out-of-range delete -/

/-- C8, counterexample: the text backend has no index guard at all —
`self.df.index[index]` raises a raw positional `IndexError`, not the
`ValueError("Invalid record index")` that realises `InvalidIndexError` in
the relational backend. -/
theorem delete_out_of_range_counterexample :
    LibraryManager.delete_record [] 0 = .error .indexError ∧
    (Except.error Err.indexError : Except Err (List Row)) ≠ .error .invalidIndex ∧
    DatabaseManager.delete_record [] 0 = .error .invalidIndex :=
  ⟨rfl, by simp, rfl⟩

/-- C8, amended: a `delete_record` whose position selector is out of range
of the record sequence fails and leaves the record count unchanged in both
backends (the failure happens before any row is touched); the relational
backend raises `InvalidIndexError` (`ValueError("Invalid record index")`),
while the text backend surfaces a raw positional `IndexError` from the
dataframe indexing. -/
theorem delete_out_of_range_amended (store : List Row) (i : Nat)
    (h : store.length ≤ i) :
    DatabaseManager.delete_record store i = .error .invalidIndex ∧
    LibraryManager.delete_record store i = .error .indexError := by
  constructor
  · simp only [DatabaseManager.delete_record]
    rw [dif_neg]
    simp only [DatabaseManager.get_all_records, List.length_map]
    omega
  · unfold LibraryManager.delete_record
    rw [if_neg]
    omega

/-- Witness for `delete_out_of_range_amended`. -/
theorem delete_out_of_range_amended_witness :
    DatabaseManager.delete_record
      [⟨some "1", some "t", some "a", some "p", some "2000", none, some "d", some "k"⟩] 1 =
      .error .invalidIndex ∧
    LibraryManager.delete_record
      [⟨some "1", some "t", some "a", some "p", some "2000", none, some "d", some "k"⟩] 1 =
      .error .indexError :=
  delete_out_of_range_amended
    [⟨some "1", some "t", some "a", some "p", some "2000", none, some "d", some "k"⟩] 1
    (by decide)

/-! ## C10 — relational delete removes every row with the resolved ISBN -/

/-- C10, confirmed: the relational `delete_record` resolves the position to
the sanitized ISBN of the record at that position of the all-records fetch
and then issues `DELETE FROM books WHERE ISBN = ?`: the result keeps exactly
the rows whose stored ISBN differs from that value, so when two or more
records share the selected record's (non-NULL) ISBN a single call removes
all of them. -/
theorem delete_removes_all_same_isbn (store : List Row) (i : Nat)
    (hi : i < store.length) :
    DatabaseManager.delete_record store i =
      .ok (store.filter
        (fun r => !(r.isbn == some (sanitizeRow (store.get ⟨i, hi⟩)).isbn))) ∧
    ∀ s, (store.get ⟨i, hi⟩).isbn = some s →
      ∀ out, DatabaseManager.delete_record store i = .ok out →
        ∀ r, (r ∈ out ↔ r ∈ store ∧ r.isbn ≠ some s) := by
  have hlen : i < (DatabaseManager.get_all_records store).length := by
    simpa [DatabaseManager.get_all_records] using hi
  have hresolve : (DatabaseManager.get_all_records store).get ⟨i, hlen⟩ =
      sanitizeRow (store.get ⟨i, hi⟩) := by
    simp [DatabaseManager.get_all_records, List.get_eq_getElem]
  have hdel : DatabaseManager.delete_record store i =
      .ok (store.filter
        (fun r => !(r.isbn == some (sanitizeRow (store.get ⟨i, hi⟩)).isbn))) := by
    simp only [DatabaseManager.delete_record]
    rw [dif_pos hlen, hresolve]
  refine ⟨hdel, fun s hs out hout r => ?_⟩
  rw [hdel] at hout
  injection hout with hout
  subst hout
  rw [List.mem_filter]
  have hsan : (sanitizeRow (store.get ⟨i, hi⟩)).isbn = s := by
    have hs2 : store[i].isbn = some s := hs
    simp [sanitizeRow, hs2]
  rw [hsan]
  constructor
  · rintro ⟨hmem, hpred⟩
    refine ⟨hmem, fun hEq => ?_⟩
    rw [hEq] at hpred
    simp at hpred
  · rintro ⟨hmem, hne⟩
    exact ⟨hmem, by simpa using hne⟩

/-- Witness for `delete_removes_all_same_isbn`: deleting position 0 of a
store whose first and third rows share ISBN "1" removes both. -/
theorem delete_removes_all_same_isbn_witness :
    DatabaseManager.delete_record
      [⟨some "1", some "t", some "a", some "p", some "2000", none, some "d", some "k"⟩,
       ⟨some "2", some "u", some "b", some "q", some "2001", none, some "e", some "l"⟩,
       ⟨some "1", some "v", some "c", some "w", some "2002", none, some "f", some "m"⟩] 0 =
      .ok ([⟨some "1", some "t", some "a", some "p", some "2000", none, some "d", some "k"⟩,
            ⟨some "2", some "u", some "b", some "q", some "2001", none, some "e", some "l"⟩,
            ⟨some "1", some "v", some "c", some "w", some "2002", none, some "f", some "m"⟩].filter
        (fun r => !(r.isbn == some (sanitizeRow
          (([⟨some "1", some "t", some "a", some "p", some "2000", none, some "d", some "k"⟩,
             ⟨some "2", some "u", some "b", some "q", some "2001", none, some "e", some "l"⟩,
             ⟨some "1", some "v", some "c", some "w", some "2002", none, some "f", some "m"⟩] :
             List Row).get ⟨0, by decide⟩)).isbn))) :=
  (delete_removes_all_same_isbn
    [⟨some "1", some "t", some "a", some "p", some "2000", none, some "d", some "k"⟩,
     ⟨some "2", some "u", some "b", some "q", some "2001", none, some "e", some "l"⟩,
     ⟨some "1", some "v", some "c", some "w", some "2002", none, some "f", some "m"⟩] 0
    (by decide)).1

/-! ## C9 — null substitution on read -/

/-- C9, counterexample: the text backend's `get_all_records` returns the raw
dataframe rows, so a record stored with an empty Signature (persisted as
None/NaN by `add_record`) comes back with a missing value, not the empty
string; the store below is reachable by a single `add_record`. -/
theorem get_all_null_counterexample :
    LibraryManager.add_record [] ⟨"1", "t", "a", "p", "2000", "", "d", "k"⟩ =
      .ok [⟨some "1", some "t", some "a", some "p", some "2000", none, some "d", some "k"⟩] ∧
    (LibraryManager.get_all_records
        [⟨some "1", some "t", some "a", some "p", some "2000", none, some "d", some "k"⟩]).get?
        0 =
      some ⟨some "1", some "t", some "a", some "p", some "2000", none, some "d", some "k"⟩ ∧
    (⟨some "1", some "t", some "a", some "p", some "2000", none, some "d", some "k"⟩ :
      Row).signature = none :=
  ⟨rfl, rfl, rfl⟩

/-- C9, amended: only the relational backend substitutes the empty string
for NULL on read — its `get_all_records` returns, position by position, the
sanitized row in which every missing field reads as `""`, so every field of
every returned tuple is a string.  The text backend (and the read-only
viewer, which shares the same code) returns the raw stored rows, missing
values included. -/
theorem get_all_sanitizes_amended (store : List Row) (i : Nat) (hi : i < store.length) :
    (DatabaseManager.get_all_records store).length = store.length ∧
    (DatabaseManager.get_all_records store).get
        ⟨i, by simpa [DatabaseManager.get_all_records] using hi⟩ =
      sanitizeRow (store.get ⟨i, hi⟩) ∧
    ((store.get ⟨i, hi⟩).signature = none →
      ((DatabaseManager.get_all_records store).get
          ⟨i, by simpa [DatabaseManager.get_all_records] using hi⟩).signature = "") ∧
    LibraryManager.get_all_records store = store := by
  refine ⟨by simp [DatabaseManager.get_all_records], ?_, ?_, rfl⟩
  · simp [DatabaseManager.get_all_records, List.get_eq_getElem]
  · intro hnone
    have h2 : store[i].signature = none := hnone
    simp [DatabaseManager.get_all_records, List.get_eq_getElem, sanitizeRow, h2]

/-- Witness for `get_all_sanitizes_amended` at a store with a NULL field. -/
theorem get_all_sanitizes_amended_witness :
    (DatabaseManager.get_all_records
        [⟨some "1", some "t", some "a", some "p", some "2000", none, some "d", some "k"⟩]).length =
      ([⟨some "1", some "t", some "a", some "p", some "2000", none, some "d", some "k"⟩] :
        List Row).length :=
  (get_all_sanitizes_amended
    [⟨some "1", some "t", some "a", some "p", some "2000", none, some "d", some "k"⟩] 0
    (by decide)).1

/-! ## C4 — import_from_tsv merge semantics -/

theorem contains_iff_mem (l : List String) (s : String) :
    l.contains s = true ↔ s ∈ l := by
  simp [List.contains_eq_any_beq, List.any_eq_true, eq_comm]

theorem importStep_some (sigs : List String) (acc : Nat × Nat × List Row) (r : Row)
    (s : String) (h : r.signature = some s) :
    DatabaseManager.importStep sigs acc r =
      if sigs.contains (pyStrip s) then (acc.1, acc.2.1 + 1, acc.2.2)
      else DatabaseManager.tryInsert acc r := by
  unfold DatabaseManager.importStep
  split
  · rename_i t hEq
    rw [h] at hEq
    injection hEq with hst
    subst hst
    rfl
  · rename_i hEq
    rw [h] at hEq
    cases hEq

theorem importStep_none (sigs : List String) (acc : Nat × Nat × List Row) (r : Row)
    (h : r.signature = none) :
    DatabaseManager.importStep sigs acc r = DatabaseManager.tryInsert acc r := by
  unfold DatabaseManager.importStep
  split
  · rename_i t hEq
    rw [h] at hEq
    cases hEq
  · rfl

theorem tryInsert_shape (acc : Nat × Nat × List Row) (r : Row) :
    DatabaseManager.tryInsert acc r = (acc.1, acc.2.1 + 1, acc.2.2) ∨
    DatabaseManager.tryInsert acc r = (acc.1 + 1, acc.2.1, acc.2.2 ++ [r]) := by
  unfold DatabaseManager.tryInsert
  cases hins : DatabaseManager.insertRow acc.2.2 r with
  | ok st' =>
    right
    obtain ⟨rfl, -⟩ := insertRow_ok_shape acc.2.2 r st' hins
    rfl
  | error e => left; rfl

theorem importStep_shape (sigs : List String) (acc : Nat × Nat × List Row) (r : Row) :
    DatabaseManager.importStep sigs acc r = (acc.1, acc.2.1 + 1, acc.2.2) ∨
    DatabaseManager.importStep sigs acc r = (acc.1 + 1, acc.2.1, acc.2.2 ++ [r]) := by
  cases hsig : r.signature with
  | some s =>
    rw [importStep_some sigs acc r s hsig]
    by_cases hc : sigs.contains (pyStrip s) = true
    · rw [if_pos hc]; left; rfl
    · rw [if_neg hc]; exact tryInsert_shape acc r
  | none =>
    rw [importStep_none sigs acc r hsig]
    exact tryInsert_shape acc r

/-- A source row is inserted (rather than skipped) exactly when its
signature is absent, or neither matches — after stripping — a signature
captured before the import began, nor — verbatim — the signature of a row
of the store as it stands when the row is processed. -/
theorem importStep_inserts_iff (sigs : List String) (acc : Nat × Nat × List Row) (r : Row) :
    DatabaseManager.importStep sigs acc r = (acc.1 + 1, acc.2.1, acc.2.2 ++ [r]) ↔
      ∀ s, r.signature = some s →
        pyStrip s ∉ sigs ∧ ∀ row ∈ acc.2.2, row.signature ≠ some s := by
  cases hsig : r.signature with
  | none =>
    rw [importStep_none sigs acc r hsig]
    unfold DatabaseManager.tryInsert
    rw [insertRow_ok_of_none acc.2.2 r hsig]
    simp [hsig]
  | some s =>
    rw [importStep_some sigs acc r s hsig]
    by_cases hc : sigs.contains (pyStrip s) = true
    · rw [if_pos hc]
      constructor
      · intro hEq
        exact absurd (congrArg (fun p => p.1) hEq) (by simp)
      · intro hAll
        exact absurd ((contains_iff_mem _ _).mp hc) (hAll s rfl).1
    · rw [if_neg hc]
      unfold DatabaseManager.tryInsert
      cases hins : DatabaseManager.insertRow acc.2.2 r with
      | ok st' =>
        obtain ⟨rfl, hno⟩ := insertRow_ok_shape acc.2.2 r st' hins
        simp only [true_iff]
        intro t ht
        injection ht with hst
        subst hst
        refine ⟨fun hmem => hc ((contains_iff_mem _ _).mpr hmem), ?_⟩
        exact (sigExists_eq_false_iff acc.2.2 s).mp (hno s hsig)
      | error e =>
        constructor
        · intro hEq
          exact absurd (congrArg (fun p => p.1) hEq) (by simp)
        · intro hAll
          exfalso
          have hex : DatabaseManager.sigExists acc.2.2 s = false := by
            rw [sigExists_eq_false_iff]
            intro row hrow
            exact (hAll s rfl).2 row hrow
          have hok := insertRow_ok_of_no_collision acc.2.2 r (fun t ht => by
            rw [hsig] at ht
            injection ht with hst
            subst hst
            exact hex)
          rw [hok] at hins
          cases hins

theorem import_foldl_shape (sigs : List String) (src : List Row) :
    ∀ acc : Nat × Nat × List Row,
      (src.foldl (DatabaseManager.importStep sigs) acc).1 +
        (src.foldl (DatabaseManager.importStep sigs) acc).2.1 =
        acc.1 + acc.2.1 + src.length ∧
      ∃ ins, ins.Sublist src ∧
        (src.foldl (DatabaseManager.importStep sigs) acc).2.2 = acc.2.2 ++ ins ∧
        acc.1 + ins.length = (src.foldl (DatabaseManager.importStep sigs) acc).1 := by
  induction src with
  | nil =>
    intro acc
    exact ⟨by simp, [], List.Sublist.refl _, by simp, by simp⟩
  | cons r rest ih =>
    intro acc
    rcases importStep_shape sigs acc r with hstep | hstep
    · obtain ⟨hcount, ins', hsub, hstore, hlen⟩ := ih (DatabaseManager.importStep sigs acc r)
      rw [hstep] at hcount hstore hlen
      refine ⟨?_, ins', hsub.cons r, ?_, ?_⟩
      · simpa [List.foldl_cons, hstep, Nat.add_assoc, Nat.add_comm, Nat.add_left_comm]
          using hcount
      · simpa [List.foldl_cons, hstep] using hstore
      · simpa [List.foldl_cons, hstep] using hlen
    · obtain ⟨hcount, ins', hsub, hstore, hlen⟩ := ih (DatabaseManager.importStep sigs acc r)
      rw [hstep] at hcount hstore hlen
      refine ⟨?_, r :: ins', hsub.cons₂ r, ?_, ?_⟩
      · simpa [List.foldl_cons, hstep, Nat.add_assoc, Nat.add_comm, Nat.add_left_comm]
          using hcount
      · simp only [List.foldl_cons, hstep]
        rw [hstore, List.append_assoc]
        rfl
      · simp only [List.foldl_cons, hstep, List.length_cons]
        omega

/-- C4, counterexample: the skip test compares the *stripped* source
signature against the pre-import store signatures
(`str(signature).strip() in current_sigs`).  A source record whose
signature `" S"` is non-empty and not present verbatim in the store is
nevertheless skipped because its stripped form matches the stored `"S"`:
the import returns `(0, 1)` and inserts nothing, although the claim's
exact-presence reading requires it to be inserted. -/
theorem import_merge_counterexample :
    DatabaseManager.import_from_tsv
      [⟨some "1", none, none, none, none, some "S", none, none⟩]
      [⟨some "2", none, none, none, none, some " S", none, none⟩] =
      (0, 1, [⟨some "1", none, none, none, none, some "S", none, none⟩]) ∧
    (" S" : String) ≠ "" ∧
    (∀ r ∈ [(⟨some "1", none, none, none, none, some "S", none, none⟩ : Row)],
      r.signature ≠ some " S") :=
  ⟨rfl, by decide, by decide⟩

/-- C4, amended: `import_from_tsv` processes the source in order and
returns `(imported, skipped)` with `imported + skipped = |source|`; the
final store is the initial store followed by exactly the inserted rows (a
subsequence of the source of length `imported`).  A source row is inserted
iff its signature is absent, or neither its *stripped* form equals a
signature captured before the import began nor its verbatim form equals the
signature of a row of the store as it stands when the row is processed
(records inserted earlier in the same import included — the UNIQUE
constraint turns such collisions into skips).  In particular a two-row
source consisting of one record whose signature duplicates the store and
one record with a novel signature returns `(1, 1)` and the store gains
exactly that one record. -/
theorem import_merge_amended (store : List Row) (src : List Row) :
    ((DatabaseManager.import_from_tsv store src).1 +
      (DatabaseManager.import_from_tsv store src).2.1 = src.length) ∧
    (∃ ins, ins.Sublist src ∧
      (DatabaseManager.import_from_tsv store src).2.2 = store ++ ins ∧
      ins.length = (DatabaseManager.import_from_tsv store src).1) ∧
    (∀ acc r, DatabaseManager.importStep (DatabaseManager.storedSigs store) acc r =
        (acc.1 + 1, acc.2.1, acc.2.2 ++ [r]) ↔
        ∀ s, r.signature = some s →
          pyStrip s ∉ DatabaseManager.storedSigs store ∧
          ∀ row ∈ acc.2.2, row.signature ≠ some s) ∧
    (∀ r1 r2 s1, r1.signature = some s1 →
      pyStrip s1 ∈ DatabaseManager.storedSigs store →
      (∀ s2, r2.signature = some s2 →
        pyStrip s2 ∉ DatabaseManager.storedSigs store ∧
        ∀ row ∈ store, row.signature ≠ some s2) →
      DatabaseManager.import_from_tsv store [r1, r2] = (1, 1, store ++ [r2])) := by
  refine ⟨?_, ?_, fun acc r => importStep_inserts_iff _ acc r, ?_⟩
  · have h := (import_foldl_shape (DatabaseManager.storedSigs store) src (0, 0, store)).1
    simpa [DatabaseManager.import_from_tsv] using h
  · obtain ⟨ins, hsub, hstore, hlen⟩ :=
      (import_foldl_shape (DatabaseManager.storedSigs store) src (0, 0, store)).2
    exact ⟨ins, hsub, hstore, by simpa [DatabaseManager.import_from_tsv] using hlen⟩
  · intro r1 r2 s1 hr1 hmem1 hr2
    have h1 : DatabaseManager.importStep (DatabaseManager.storedSigs store) (0, 0, store) r1 =
        (0, 1, store) := by
      rw [importStep_some _ _ r1 s1 hr1, if_pos ((contains_iff_mem _ _).mpr hmem1)]
    have h2 : DatabaseManager.importStep (DatabaseManager.storedSigs store) (0, 1, store) r2 =
        (1, 1, store ++ [r2]) :=
      (importStep_inserts_iff (DatabaseManager.storedSigs store) (0, 1, store) r2).mpr
        (fun s hs => hr2 s hs)
    simp only [DatabaseManager.import_from_tsv, List.foldl_cons, List.foldl_nil]
    rw [h1, h2]

/-- Witness for `import_merge_amended`: the spec's own one-duplicate,
one-novel scenario on a concrete store. -/
theorem import_merge_amended_witness :
    DatabaseManager.import_from_tsv
      [⟨some "1", none, none, none, none, some "S", none, none⟩]
      [⟨some "2", none, none, none, none, some "S", none, none⟩,
       ⟨some "3", none, none, none, none, some "T", none, none⟩] =
      (1, 1, [⟨some "1", none, none, none, none, some "S", none, none⟩] ++
        [⟨some "3", none, none, none, none, some "T", none, none⟩]) :=
  (import_merge_amended
    [⟨some "1", none, none, none, none, some "S", none, none⟩]
    [⟨some "2", none, none, none, none, some "S", none, none⟩,
     ⟨some "3", none, none, none, none, some "T", none, none⟩]).2.2.2
    ⟨some "2", none, none, none, none, some "S", none, none⟩
    ⟨some "3", none, none, none, none, some "T", none, none⟩ "S" rfl (by decide)
    (fun s2 hs2 => by
      injection hs2 with hst
      subst hst
      exact ⟨by decide, by decide⟩)

/-! ## C3 — filter_records and literal-substring matching -/

theorem likeStar_isEmpty (s : List Char) : likeStar (likeMatch []) s = true := by
  induction s with
  | nil => rfl
  | cons d s' ih => simp [likeStar, ih]

theorem likeMatch_append_percent (p : List Char) (hp : ∀ c ∈ p, c ≠ '%' ∧ c ≠ '_') :
    ∀ s, likeMatch (p ++ ['%']) s = isPrefixCI p s := by
  induction p with
  | nil =>
    intro s
    simp only [List.nil_append]
    show likeMatch ['%'] s = isPrefixCI [] s
    have : likeMatch ['%'] s = likeStar (likeMatch []) s := by
      simp [likeMatch]
    rw [this, likeStar_isEmpty]
    rfl
  | cons c p' ih =>
    intro s
    obtain ⟨hc1, hc2⟩ := hp c (List.mem_cons_self c p')
    have hp' : ∀ d ∈ p', d ≠ '%' ∧ d ≠ '_' := fun d hd => hp d (List.mem_cons_of_mem c hd)
    cases s with
    | nil =>
      simp [likeMatch, isPrefixCI, hc1]
    | cons d s' =>
      simp only [List.cons_append, likeMatch, if_neg hc1, if_neg hc2, isPrefixCI]
      congr 1
      exact ih hp' s'

theorem likeStar_substr (p : List Char) (next : List Char → Bool)
    (hnext : ∀ t, next t = isPrefixCI p t) :
    ∀ s, likeStar next s = substrCIChars p s := by
  intro s
  induction s with
  | nil => simp [likeStar, substrCIChars, hnext]
  | cons d s' ih => simp [likeStar, substrCIChars, hnext, ih]

theorem likeMatch_wrapped (p : List Char) (hp : ∀ c ∈ p, c ≠ '%' ∧ c ≠ '_') (s : List Char) :
    likeMatch ('%' :: (p ++ ['%'])) s = substrCIChars p s := by
  have h1 : likeMatch ('%' :: (p ++ ['%'])) s = likeStar (likeMatch (p ++ ['%'])) s := by
    simp [likeMatch]
  rw [h1]
  exact likeStar_substr p _ (fun t => likeMatch_append_percent p hp t) s

theorem noMeta_chars (crit : String) (h : noMeta crit = true) :
    ∀ c ∈ crit.data, c ≠ '%' ∧ c ≠ '_' := by
  intro c hc
  have := List.all_eq_true.mp h c hc
  simpa using this

theorem likeCond_eq_spec (field : Option String) (crit : String) (h : noMeta crit = true) :
    likeCond field crit = specFieldMatch crit field := by
  cases field with
  | none => rfl
  | some s =>
    show likeMatch ('%' :: (crit.data ++ ['%'])) s.data = substrCI crit s
    rw [likeMatch_wrapped crit.data (noMeta_chars crit h) s.data]
    rfl

theorem keywords_all_eq_spec (field : Option String) (l : List String)
    (h : ∀ t ∈ l, noMeta t = true) :
    l.all (fun kw => likeCond field kw) = l.all (fun kw => specFieldMatch kw field) := by
  induction l with
  | nil => rfl
  | cons t rest ih =>
    simp only [List.all_cons]
    rw [likeCond_eq_spec field t (h t (List.mem_cons_self t rest)),
      ih (fun u hu => h u (List.mem_cons_of_mem t hu))]

/-- C3, counterexample: the relational backend passes each criterion into
SQL `LIKE '%…%'`, where `_` is a one-character wildcard.  The criterion
`"a_c"` therefore matches a record whose Title is `"abc"` and the record is
returned, although `"a_c"` is not a case-insensitive literal substring of
`"abc"` — the claim's "exactly the records whose field contains the
criterion as a literal substring" fails. -/
theorem filter_like_counterexample :
    DatabaseManager.filter_records
      [⟨some "1", some "abc", none, none, none, none, none, none⟩]
      ⟨"", "a_c", "", "", "", "", ""⟩ =
      [⟨"1", "abc", "", "", "", "", "", ""⟩] ∧
    substrCI "a_c" "abc" = false :=
  ⟨rfl, rfl⟩

/-- C3, amended: in the relational backend every criterion is interpreted
as a SQL LIKE pattern (`%`/`_` wildcards, ASCII case folding), not as a
literal.  For criteria — including every stripped comma-separated keyword
token — that contain no `%` and no `_`, `filter_records` returns exactly
the records, in backend order and NULL-sanitized on read, for which every
non-empty single-value criterion is a case-insensitive literal substring of
the field's string form and every keyword token is independently one of the
Keywords field (AND across tokens and across criteria); a missing (NULL)
field value never matches a non-empty criterion.  (The text backend
deviates analogously by treating criteria as regular expressions.) -/
theorem filter_records_amended (store : List Row) (f : Filters)
    (h1 : noMeta f.isbn = true) (h2 : noMeta f.title = true)
    (h3 : noMeta f.author = true) (h4 : noMeta f.publisher = true)
    (h5 : noMeta f.year = true) (h6 : noMeta f.signature = true)
    (h7 : ∀ t ∈ keywordTokens f.keywords, noMeta t = true) :
    DatabaseManager.filter_records store f =
      (store.filter (specPasses f)).map sanitizeRow := by
  unfold DatabaseManager.filter_records
  congr 1
  refine List.filter_congr (fun r _ => ?_)
  unfold DatabaseManager.rowPasses specPasses
  rw [likeCond_eq_spec r.isbn f.isbn h1, likeCond_eq_spec r.title f.title h2,
    likeCond_eq_spec r.author f.author h3, likeCond_eq_spec r.publisher f.publisher h4,
    likeCond_eq_spec r.year f.year h5, likeCond_eq_spec r.signature f.signature h6,
    keywords_all_eq_spec r.keywords (keywordTokens f.keywords) h7]

/-- Witness for `filter_records_amended`: metacharacter-free criteria on a
concrete two-record store. -/
theorem filter_records_amended_witness :
    DatabaseManager.filter_records
      [⟨some "1", some "Logic", none, none, none, none, none, some "math, proof"⟩,
       ⟨some "2", some "Cooking", none, none, none, none, none, some "food"⟩]
      ⟨"", "log", "", "", "", "", "math,proof"⟩ =
      (([⟨some "1", some "Logic", none, none, none, none, none, some "math, proof"⟩,
         ⟨some "2", some "Cooking", none, none, none, none, none, some "food"⟩] :
         List Row).filter
        (specPasses ⟨"", "log", "", "", "", "", "math,proof"⟩)).map sanitizeRow :=
  filter_records_amended
    [⟨some "1", some "Logic", none, none, none, none, none, some "math, proof"⟩,
     ⟨some "2", some "Cooking", none, none, none, none, none, some "food"⟩]
    ⟨"", "log", "", "", "", "", "math,proof"⟩
    (by decide) (by decide) (by decide) (by decide) (by decide) (by decide)
    (by decide)

/-! ## C7 — sort-by-column: order lemmas for Python string comparison -/

theorem pyCharsLt_irrefl : ∀ a, pyCharsLt a a = false := by
  intro a
  induction a with
  | nil => rfl
  | cons c cs ih =>
    unfold pyCharsLt
    rw [if_neg (lt_irrefl c), if_neg (lt_irrefl c)]
    exact ih

theorem pyCharsLt_asymm : ∀ a b, pyCharsLt a b = true → pyCharsLt b a = false := by
  intro a
  induction a with
  | nil =>
    intro b hab
    cases b with
    | nil => cases hab
    | cons y ys => rfl
  | cons x xs ih =>
    intro b hab
    cases b with
    | nil => cases hab
    | cons y ys =>
      unfold pyCharsLt at hab ⊢
      by_cases h1 : x < y
      · rw [if_neg (lt_asymm h1), if_pos h1]
      · rw [if_neg h1] at hab
        by_cases h2 : y < x
        · rw [if_pos h2] at hab
          cases hab
        · rw [if_neg h2] at hab
          rw [if_neg h2, if_neg h1]
          exact ih ys hab

theorem pyCharsLt_negtrans : ∀ a b c,
    pyCharsLt a b = false → pyCharsLt b c = false → pyCharsLt a c = false := by
  intro a
  induction a with
  | nil =>
    intro b c hab hbc
    cases b with
    | nil => exact hbc
    | cons y ys => cases hab
  | cons x xs ih =>
    intro b c hab hbc
    cases b with
    | nil =>
      cases c with
      | nil => rfl
      | cons z zs => cases hbc
    | cons y ys =>
      cases c with
      | nil => rfl
      | cons z zs =>
        unfold pyCharsLt at hab hbc ⊢
        by_cases h1 : x < y
        · rw [if_pos h1] at hab
          cases hab
        · by_cases h2 : y < z
          · rw [if_pos h2] at hbc
            cases hbc
          · have h3 : ¬ x < z :=
              not_lt.mpr (le_trans (le_of_not_lt h2) (le_of_not_lt h1))
            rw [if_neg h3]
            rw [if_neg h1] at hab
            rw [if_neg h2] at hbc
            by_cases h4 : z < x
            · rw [if_pos h4]
            · rw [if_neg h4]
              by_cases h5 : y < x
              · exact absurd (lt_of_le_of_lt (le_of_not_lt h2) h5) h4
              · by_cases h6 : z < y
                · exact absurd (lt_of_lt_of_le h6 (le_of_not_lt h1)) h4
                · rw [if_neg h5] at hab
                  rw [if_neg h6] at hbc
                  exact ih ys zs hab hbc

theorem pyCharsLt_antisymm : ∀ a b,
    pyCharsLt a b = false → pyCharsLt b a = false → a = b := by
  intro a
  induction a with
  | nil =>
    intro b hab _
    cases b with
    | nil => rfl
    | cons y ys => cases hab
  | cons x xs ih =>
    intro b hab hba
    cases b with
    | nil => cases hba
    | cons y ys =>
      unfold pyCharsLt at hab hba
      by_cases h1 : x < y
      · rw [if_pos h1] at hab
        cases hab
      · by_cases h2 : y < x
        · rw [if_pos h2] at hba
          cases hba
        · rw [if_neg h1, if_neg h2] at hab
          rw [if_neg h2, if_neg h1] at hba
          have hxy : x = y := le_antisymm (le_of_not_lt h2) (le_of_not_lt h1)
          rw [hxy, ih ys hab hba]

theorem string_data_inj (a b : String) (h : a.data = b.data) : a = b := by
  cases a
  cases b
  exact congrArg String.mk h

theorem pyStrLt_asymm (a b : String) (h : pyStrLt a b = true) : pyStrLt b a = false :=
  pyCharsLt_asymm a.data b.data h

theorem pyStrLt_negtrans (a b c : String) (h1 : pyStrLt a b = false)
    (h2 : pyStrLt b c = false) : pyStrLt a c = false :=
  pyCharsLt_negtrans a.data b.data c.data h1 h2

theorem pyStrLt_antisymm (a b : String) (h1 : pyStrLt a b = false)
    (h2 : pyStrLt b a = false) : a = b :=
  string_data_inj a b (pyCharsLt_antisymm a.data b.data h1 h2)

theorem pyStrLt_irrefl (a : String) : pyStrLt a a = false :=
  pyCharsLt_irrefl a.data

theorem viewLt_asymm (col : Nat) (rev : Bool) (a b : BookRec)
    (h : viewLt col rev a b = true) : viewLt col rev b a = false := by
  cases rev with
  | false => exact pyStrLt_asymm _ _ h
  | true => exact pyStrLt_asymm _ _ h

theorem viewLt_negtrans (col : Nat) (rev : Bool) (a b c : BookRec)
    (h1 : viewLt col rev a b = false) (h2 : viewLt col rev b c = false) :
    viewLt col rev a c = false := by
  cases rev with
  | false => exact pyStrLt_negtrans _ _ _ h1 h2
  | true => exact pyStrLt_negtrans _ _ _ h2 h1

theorem viewLt_of_eq_keys (col : Nat) (rev : Bool) (a b : BookRec)
    (h : sortKey col a = sortKey col b) : viewLt col rev a b = false := by
  cases rev with
  | false => simpa [viewLt, h] using pyStrLt_irrefl (sortKey col b)
  | true => simpa [viewLt, h] using pyStrLt_irrefl (sortKey col b)

/-! Generic facts about the stable insertion sort. -/

theorem stableInsert_perm {α : Type} (lt : α → α → Bool) (x : α) :
    ∀ l : List α, (stableInsert lt x l).Perm (x :: l) := by
  intro l
  induction l with
  | nil => exact List.Perm.refl _
  | cons y ys ih =>
    unfold stableInsert
    by_cases h : lt y x = true
    · rw [if_pos h]
      exact (ih.cons y).trans (List.Perm.swap x y ys)
    · rw [if_neg h]

theorem stableSort_perm {α : Type} (lt : α → α → Bool) :
    ∀ l : List α, (stableSort lt l).Perm l := by
  intro l
  induction l with
  | nil => exact List.Perm.refl _
  | cons x xs ih =>
    exact (stableInsert_perm lt x (stableSort lt xs)).trans (ih.cons x)

theorem mem_stableInsert {α : Type} (lt : α → α → Bool) (x b : α) (l : List α) :
    b ∈ stableInsert lt x l ↔ b = x ∨ b ∈ l := by
  rw [(stableInsert_perm lt x l).mem_iff]
  simp

theorem stableInsert_pairwise {α : Type} (lt : α → α → Bool)
    (hasymm : ∀ a b, lt a b = true → lt b a = false)
    (hnegtrans : ∀ a b c, lt a b = false → lt b c = false → lt a c = false)
    (x : α) (l : List α) (hl : l.Pairwise (fun a b => lt b a = false)) :
    (stableInsert lt x l).Pairwise (fun a b => lt b a = false) := by
  induction l with
  | nil => exact List.pairwise_singleton _ _
  | cons y ys ih =>
    rcases List.pairwise_cons.mp hl with ⟨hy, hys⟩
    unfold stableInsert
    by_cases h : lt y x = true
    · rw [if_pos h]
      rw [List.pairwise_cons]
      refine ⟨fun b hb => ?_, ih hys⟩
      rcases (mem_stableInsert lt x b ys).mp hb with rfl | hbys
      · exact hasymm y b h
      · exact hy b hbys
    · rw [if_neg h]
      rw [List.pairwise_cons]
      refine ⟨fun b hb => ?_, hl⟩
      rcases List.mem_cons.mp hb with rfl | hbys
      · simpa using h
      · exact hnegtrans b y x (hy b hbys) (by simpa using h)

theorem stableSort_pairwise {α : Type} (lt : α → α → Bool)
    (hasymm : ∀ a b, lt a b = true → lt b a = false)
    (hnegtrans : ∀ a b c, lt a b = false → lt b c = false → lt a c = false) :
    ∀ l : List α, (stableSort lt l).Pairwise (fun a b => lt b a = false) := by
  intro l
  induction l with
  | nil => exact List.Pairwise.nil
  | cons x xs ih => exact stableInsert_pairwise lt hasymm hnegtrans x _ ih

theorem filter_stableInsert_pos {α : Type} (lt : α → α → Bool) (p : α → Bool)
    (x : α) (l : List α) (hx : p x = true)
    (hties : ∀ y, p y = true → lt y x = false) :
    (stableInsert lt x l).filter p = x :: l.filter p := by
  induction l with
  | nil => simp [stableInsert, hx]
  | cons y ys ih =>
    unfold stableInsert
    by_cases h : lt y x = true
    · rw [if_pos h]
      have hpy : p y = false := by
        by_cases hpy : p y = true
        · exact absurd (hties y hpy) (by simp [h])
        · simpa using hpy
      simp [List.filter_cons, hpy, ih]
    · rw [if_neg h]
      simp [List.filter_cons, hx]

theorem filter_stableInsert_neg {α : Type} (lt : α → α → Bool) (p : α → Bool)
    (x : α) (l : List α) (hx : p x = false) :
    (stableInsert lt x l).filter p = l.filter p := by
  induction l with
  | nil => simp [stableInsert, hx]
  | cons y ys ih =>
    unfold stableInsert
    by_cases h : lt y x = true
    · rw [if_pos h]
      simp [List.filter_cons, ih]
    · rw [if_neg h]
      simp [List.filter_cons, hx]

theorem filter_stableSort {α : Type} (lt : α → α → Bool) (p : α → Bool)
    (hties : ∀ x y, p x = true → p y = true → lt y x = false) :
    ∀ l : List α, (stableSort lt l).filter p = l.filter p := by
  intro l
  induction l with
  | nil => rfl
  | cons x xs ih =>
    show (stableInsert lt x (stableSort lt xs)).filter p = (x :: xs).filter p
    by_cases hx : p x = true
    · rw [filter_stableInsert_pos lt p x _ hx (fun y hy => hties x y hx hy), ih]
      simp [List.filter_cons, hx]
    · rw [filter_stableInsert_neg lt p x _ (by simpa using hx), ih]
      simp [List.filter_cons, hx]

/-- Descending stable sort of an ascending-sorted list with pairwise
distinct keys is its reverse. -/
theorem sort_twice_reverse (col : Nat) (l : List BookRec)
    (hdist : l.Pairwise (fun a b => sortKey col a ≠ sortKey col b)) :
    pySortedView col true (pySortedView col false l) =
      (pySortedView col false l).reverse := by
  have hsymm : ∀ {x y : BookRec},
      sortKey col x ≠ sortKey col y → sortKey col y ≠ sortKey col x :=
    fun h => h.symm
  have hperm : pySortedView col false l |>.Perm l := stableSort_perm _ l
  have hdistla : (pySortedView col false l).Pairwise
      (fun a b => sortKey col a ≠ sortKey col b) :=
    (hperm.pairwise_iff hsymm).mpr hdist
  have hsorted : (pySortedView col false l).Pairwise
      (fun a b => viewLt col false b a = false) :=
    stableSort_pairwise _ (viewLt_asymm col false) (viewLt_negtrans col false) l
  have hstrict : (pySortedView col false l).Pairwise
      (fun a b => pyStrLt (sortKey col a) (sortKey col b) = true) := by
    refine (hsorted.and hdistla).imp ?_
    rintro a b ⟨hab, hne⟩
    by_cases hlt : pyStrLt (sortKey col a) (sortKey col b) = true
    · exact hlt
    · exact absurd (pyStrLt_antisymm _ _ (by simpa using hlt) hab) hne
  have hlb_perm : pySortedView col true (pySortedView col false l) |>.Perm
      (pySortedView col false l) := stableSort_perm _ _
  have hdistlb : (pySortedView col true (pySortedView col false l)).Pairwise
      (fun a b => sortKey col a ≠ sortKey col b) :=
    (hlb_perm.pairwise_iff hsymm).mpr hdistla
  have hlb_sorted : (pySortedView col true (pySortedView col false l)).Pairwise
      (fun a b => viewLt col true b a = false) :=
    stableSort_pairwise _ (viewLt_asymm col true) (viewLt_negtrans col true) _
  have hlb_strict : (pySortedView col true (pySortedView col false l)).Pairwise
      (fun a b => pyStrLt (sortKey col b) (sortKey col a) = true) := by
    refine (hlb_sorted.and hdistlb).imp ?_
    rintro a b ⟨hab, hne⟩
    by_cases hlt : pyStrLt (sortKey col b) (sortKey col a) = true
    · exact hlt
    · exact absurd (pyStrLt_antisymm _ _ hab (by simpa using hlt)) hne
  have hrev_strict : ((pySortedView col false l).reverse).Pairwise
      (fun a b => pyStrLt (sortKey col b) (sortKey col a) = true) := by
    rw [List.pairwise_reverse]
    exact hstrict
  have hpermrev : pySortedView col true (pySortedView col false l) |>.Perm
      ((pySortedView col false l).reverse) :=
    hlb_perm.trans (pySortedView col false l).reverse_perm.symm
  haveI : IsAntisymm BookRec (fun a b => pyStrLt (sortKey col b) (sortKey col a) = true) :=
    ⟨fun a b h1 h2 => by
      have := pyStrLt_asymm _ _ h1
      rw [h2] at this
      cases this⟩
  exact List.eq_of_perm_of_sorted hpermrev hlb_strict hrev_strict

/-- C7, counterexample: sorting twice on the same column is not the reverse
of the first sort when key values tie.  Two records sharing ISBN `"1"`
(differing in Title) keep their original order under both the ascending and
the descending stable sort, so the twice-sorted sequence equals the
once-sorted sequence, not its reverse. -/
theorem sort_twice_counterexample :
    (sort_by_column (sort_by_column
        ⟨none, false,
         [⟨"1", "b", "", "", "", "", "", ""⟩, ⟨"1", "a", "", "", "", "", "", ""⟩]⟩ 0) 0).currentData =
      [⟨"1", "b", "", "", "", "", "", ""⟩, ⟨"1", "a", "", "", "", "", "", ""⟩] ∧
    ((sort_by_column
        ⟨none, false,
         [⟨"1", "b", "", "", "", "", "", ""⟩, ⟨"1", "a", "", "", "", "", "", ""⟩]⟩ 0).currentData).reverse =
      [⟨"1", "a", "", "", "", "", "", ""⟩, ⟨"1", "b", "", "", "", "", "", ""⟩] ∧
    ([⟨"1", "b", "", "", "", "", "", ""⟩, ⟨"1", "a", "", "", "", "", "", ""⟩] : List BookRec) ≠
      [⟨"1", "a", "", "", "", "", "", ""⟩, ⟨"1", "b", "", "", "", "", "", ""⟩] :=
  ⟨rfl, rfl, by decide⟩

/-- C7, amended: `sort_by_column` selects the clicked column, toggling the
direction when the column is unchanged and resetting to ascending
otherwise, and stable-sorts the displayed sequence by the lowercased string
form of the column: the result is a permutation of the displayed data,
sorted for the selected direction, and records with equal keys keep their
original relative order (the filter by any key value is unchanged).
Re-invoking sort on the same column flips the direction flag and yields the
reverse-ordered sequence of the first sort *when the key values are
pairwise distinct*; with ties the descending stable sort preserves the
original order of equal-key records instead of reversing it (see the
counterexample). -/
theorem sort_by_column_amended (st : UIState) (col : Nat) :
    (sort_by_column st col).sortColumn = some col ∧
    (sort_by_column st col).sortReverse =
      (if st.sortColumn = some col then !st.sortReverse else false) ∧
    ((sort_by_column st col).currentData).Perm st.currentData ∧
    ((sort_by_column st col).currentData).Pairwise
      (fun a b =>
        viewLt col (if st.sortColumn = some col then !st.sortReverse else false) b a = false) ∧
    (∀ k, ((sort_by_column st col).currentData).filter (fun b => sortKey col b == k) =
      st.currentData.filter (fun b => sortKey col b == k)) ∧
    (st.sortColumn ≠ some col → (sort_by_column st col).sortReverse = false) ∧
    ((sort_by_column (sort_by_column st col) col).sortReverse =
      !(sort_by_column st col).sortReverse) ∧
    (st.sortColumn ≠ some col →
      st.currentData.Pairwise (fun a b => sortKey col a ≠ sortKey col b) →
      (sort_by_column (sort_by_column st col) col).currentData =
        ((sort_by_column st col).currentData).reverse) := by
  refine ⟨rfl, rfl, ?_, ?_, ?_, ?_, ?_, ?_⟩
  · exact stableSort_perm _ _
  · exact stableSort_pairwise _ (viewLt_asymm col _) (viewLt_negtrans col _) _
  · intro k
    refine filter_stableSort _ _ (fun x y hx hy => ?_) _
    exact viewLt_of_eq_keys col _ y x (((beq_iff_eq).mp hy).trans ((beq_iff_eq).mp hx).symm)
  · intro hne
    simp [sort_by_column, hne]
  · simp [sort_by_column]
  · intro hne hdist
    have h1 : (sort_by_column st col).sortColumn = some col := rfl
    have hrev1 : (sort_by_column st col).sortReverse = false := by
      simp [sort_by_column, hne]
    have hdata1 : (sort_by_column st col).currentData =
        pySortedView col false st.currentData := by
      simp [sort_by_column, hne]
    show pySortedView col
        (if (sort_by_column st col).sortColumn = some col
          then !(sort_by_column st col).sortReverse else false)
        (sort_by_column st col).currentData =
      ((sort_by_column st col).currentData).reverse
    rw [h1, if_pos rfl, hrev1, hdata1]
    exact sort_twice_reverse col st.currentData hdist

/-- Witness for `sort_by_column_amended`: two distinct-key records, sorted
twice on the ISBN column, come back reversed. -/
theorem sort_by_column_amended_witness :
    (sort_by_column (sort_by_column
        ⟨none, false,
         [⟨"2", "b", "", "", "", "", "", ""⟩, ⟨"1", "a", "", "", "", "", "", ""⟩]⟩ 0) 0).currentData =
      ((sort_by_column
        ⟨none, false,
         [⟨"2", "b", "", "", "", "", "", ""⟩, ⟨"1", "a", "", "", "", "", "", ""⟩]⟩ 0).currentData).reverse :=
  (sort_by_column_amended
    ⟨none, false,
     [⟨"2", "b", "", "", "", "", "", ""⟩, ⟨"1", "a", "", "", "", "", "", ""⟩]⟩ 0).2.2.2.2.2.2.2
    (by decide) (by decide)
